import Mathlib

/-!
# PastePal-Server: a shallow embedding of the paste and authentication handlers

The development embeds, as pure Lean functions,

* `internal/api/pastes.go`      (`CreatePaste`, `GetPaste`, `GetUserPastes`),
* `internal/middleware/auth.go` (`AuthMiddleware`, `GetUserID`),
* `internal/auth/firebase.go`   (`Login`),
* `cmd/pastepal/main.go`        (the route table built by `main`),

together with the library functions they call (`strings.HasPrefix`,
`strings.TrimPrefix`, `strings.Split`, `fmt.Sprintf`,
`base64.StdEncoding.DecodeString`, the gorilla/mux route matcher).

Go strings are modelled by Lean `String`.  Request bodies reach the handlers
through `encoding/json`, which only produces valid UTF-8, and every string
operation used by the handlers compares against, or cuts at, ASCII bytes, so
working on characters instead of bytes does not change any result.

External collaborators (Firestore, the Firebase auth client, the clock, the
UUID generator, the JSON decoder) are explicit inputs: the stores are plain
data, and the outcome of a fallible external call is a field of an input record.
-/

namespace PastePal

/-! ## Library: `strings` and `fmt` -/

/-- Go `strings.HasPrefix(s, prefix)`. -/
def HasPrefix (s pre : String) : Bool :=
  pre.data.isPrefixOf s.data

/-- Go `strings.TrimPrefix(s, prefix)`: `s` without the leading `prefix`, or `s`
itself when it does not start with `prefix`. -/
def TrimPrefix (s pre : String) : String :=
  if HasPrefix s pre then ⟨s.data.drop pre.data.length⟩ else s

/-- Worker of `Split`: `cur` is the piece being read, the list is the rest of the input. -/
def splitChars (sep : Char) : List Char → List Char → List (List Char)
  | cur, [] => [cur]
  | cur, c :: cs =>
    if c = sep then cur :: splitChars sep [] cs
    else splitChars sep (cur ++ [c]) cs

/-- Go `strings.Split(s, sep)` for a one-byte separator: the pieces of `s` between
consecutive occurrences of `sep` (so `n` separators give `n + 1` pieces, and the
empty string gives one empty piece). -/
def Split (s : String) (sep : Char) : List String :=
  (splitChars sep [] s.data).map String.mk

/-- Go `fmt.Sprintf("data:%s;base64,%s", mime, content)`. -/
def sprintfDataURL (mime content : String) : String :=
  "data:" ++ mime ++ ";base64," ++ content

/-! ## Library: `encoding/base64`, `StdEncoding.DecodeString` -/

/-- Go `base64.CorruptInputError`: the offset of the illegal input byte. -/
structure CorruptInputError where
  offset : Nat
  deriving DecidableEq, Repr

/-- Go `CorruptInputError.Error()`. -/
def CorruptInputError.Error (e : CorruptInputError) : String :=
  "illegal base64 data at input byte " ++ toString e.offset

/-- The `decodeMap` of `StdEncoding` (alphabet `A-Z a-z 0-9 + /`): the 6-bit value of
an alphabet character, `none` for every other character (`0xff` in Go). -/
def decodeMap (c : Char) : Option Nat :=
  let n := c.toNat
  if 65 ≤ n ∧ n ≤ 90 then some (n - 65)
  else if 97 ≤ n ∧ n ≤ 122 then some (n - 71)
  else if 48 ≤ n ∧ n ≤ 57 then some (n + 4)
  else if n = 43 then some 62
  else if n = 47 then some 63
  else none

/-- The test `in == '\n' || in == '\r'` of the decoder. -/
def isNewline (c : Char) : Bool :=
  c = '\n' || c = '\r'

/-- The loop `for si < len(src) && (src[si] == '\n' || src[si] == '\r') { si++ }`:
the new offset and the input left. -/
def skipNewlines : Nat → List Char → Nat × List Char
  | si, [] => (si, [])
  | si, c :: cs => if isNewline c then skipNewlines (si + 1) cs else (si, c :: cs)

/-- The tail of `decodeQuantum`: the `dlen` six-bit values read (2, 3 or 4 of them)
are packed into 24 bits, of which the first `dlen - 1` bytes are output. -/
def quantumBytes (dbuf : List Nat) : List Nat :=
  let val := dbuf.getD 0 0 * 2 ^ 18 + dbuf.getD 1 0 * 2 ^ 12 + dbuf.getD 2 0 * 2 ^ 6 + dbuf.getD 3 0
  [val / 2 ^ 16 % 256, val / 2 ^ 8 % 256, val % 256].take (dbuf.length - 1)

/-- Go `(*Encoding).Decode` for `StdEncoding` (padding `=`, not strict): the loop
`for si < len(src) { decodeQuantum }` with `decodeQuantum` inlined, as one recursion
over the input.  `si` is the offset of the next input byte, `dbuf` holds the `j`
values read so far in the current quantum; a completed quantum starts the next one
with an empty buffer.  The result is the decoded bytes, or the `CorruptInputError`
Go returns (the bytes decoded before an error are dropped). -/
def decodeFrom : Nat → List Nat → List Char → Except CorruptInputError (List Nat)
  | si, dbuf, [] =>
    -- `len(src) == si`: fine at `j == 0`, corrupt inside a quantum
    if dbuf.length = 0 then .ok [] else .error ⟨si - dbuf.length⟩
  | si, dbuf, c :: cs =>
    match decodeMap c with
    | some out =>
      if dbuf.length = 3 then
        (decodeFrom (si + 1) [] cs).map (fun rest => quantumBytes (dbuf ++ [out]) ++ rest)
      else decodeFrom (si + 1) (dbuf ++ [out]) cs
    | none =>
      if isNewline c then decodeFrom (si + 1) dbuf cs
      else if c ≠ '=' then .error ⟨si⟩
      else if dbuf.length < 2 then
        -- padding at `j == 0` or `j == 1`: incorrect padding
        .error ⟨si⟩
      else if dbuf.length = 2 then
        -- "==" is expected, the first "=" is already consumed
        match skipNewlines (si + 1) cs with
        | (si1, []) => .error ⟨si1⟩
        | (si1, d :: ds) =>
          if d ≠ '=' then .error ⟨si1 - 1⟩
          else
            match skipNewlines (si1 + 1) ds with
            | (_, []) => .ok (quantumBytes dbuf)
            | (si2, _ :: _) => .error ⟨si2⟩
      else
        match skipNewlines (si + 1) cs with
        | (_, []) => .ok (quantumBytes dbuf)
        | (si1, _ :: _) => .error ⟨si1⟩

/-- Go `base64.StdEncoding.DecodeString(s)`. -/
def DecodeString (s : String) : Except CorruptInputError (List Nat) :=
  decodeFrom 0 [] s.data

/-- The test `err == nil` on the result of `DecodeString`. -/
def validBase64 (s : String) : Bool :=
  match DecodeString s with
  | .ok _ => true
  | .error _ => false

/-! ## Data model (`internal/models/models.go`) -/

/-- Go `models.ContentType`, a string type. -/
abbrev ContentType := String

/-- Go `models.ContentTypeText`. -/
def ContentTypeText : ContentType := "text"

/-- Go `models.ContentTypeImage`. -/
def ContentTypeImage : ContentType := "image"

/-- Go `models.Paste`.  Times are instants on an abstract clock. -/
structure Paste where
  ID : String
  UserID : String
  Title : String
  Content : String
  ContentType : ContentType
  MimeType : String
  CreatedAt : Nat
  UpdatedAt : Nat
  IsPublic : Bool
  deriving DecidableEq, Repr

/-- Go `models.CreatePasteRequest`. -/
structure CreatePasteRequest where
  Title : String
  Content : String
  ContentType : ContentType
  MimeType : String
  IsPublic : Bool
  deriving DecidableEq, Repr

/-- Go `models.LoginRequest`. -/
structure LoginRequest where
  Email : String
  PasswordHash : String
  deriving DecidableEq, Repr

/-- Go `models.User`. -/
structure User where
  ID : String
  Email : String
  CreatedAt : Nat
  deriving DecidableEq, Repr

/-- Go `models.LoginResponse`. -/
structure LoginResponse where
  User : User
  AuthToken : String
  EncryptedSymmetricKey : String
  deriving DecidableEq, Repr

/-! ## External collaborators -/

/-- Firebase `auth.Token`; the handlers read its `UID` only. -/
structure Token where
  UID : String
  deriving DecidableEq, Repr

/-- Firebase `auth.UserRecord`; `Login` reads `UID` and `Email`. -/
structure UserRecord where
  UID : String
  Email : String
  deriving DecidableEq, Repr

/-- The Firebase `auth.Client`, by the calls the handlers make; an `error` result
carries the text of the Go error. -/
structure AuthClient where
  VerifyIDToken : String → Except String Token
  GetUserByEmail : String → Except String UserRecord
  CustomToken : String → Except String String

/-- A document of the `pastes` collection: one that `DataTo(&paste)` converts to
the given paste, or one that `DataTo` rejects. -/
inductive PasteDoc where
  | paste (p : Paste)
  | malformed
  deriving DecidableEq, Repr

/-- A value of a `map[string]interface{}` read from Firestore: a string, or
something that is not a string. -/
inductive FieldValue where
  | str (s : String)
  | other
  deriving DecidableEq, Repr

/-- The Firestore database: the documents of the two collections by document id.
A lookup takes the first entry with the id, so a write puts the new entry in front. -/
structure Firestore where
  pastes : List (String × PasteDoc)
  users : List (String × List (String × FieldValue))
  deriving DecidableEq, Repr

/-- What a handler can change: the database and the lines printed with `fmt.Println`. -/
structure World where
  Firestore : Firestore
  stdout : List String
  deriving DecidableEq, Repr

/-- Go `fmt.Println` of one line. -/
def World.Println (w : World) (line : String) : World :=
  { w with stdout := w.stdout ++ [line] }

/-- The request context: the value stored under the key `"user"`, when there is one. -/
structure Context where
  user : Option Token
  deriving DecidableEq, Repr

/-- Go `context.Background()`-like context of a request that just arrived: no value. -/
def Context.empty : Context := ⟨none⟩

/-- An HTTP request, by what the handlers read from it.  `Authorization` is
`r.Header.Get("Authorization")` (empty when the header is absent), `Vars` is
`mux.Vars(r)`, `bodyReadErr` is the error of `ioutil.ReadAll(r.Body)` (`none` when the
body can be read), and the two bodies are the outcome of
`json.NewDecoder(r.Body).Decode` into the respective request type. -/
structure Request where
  Method : String
  Path : String
  Authorization : String
  ctx : Context
  Vars : List (String × String)
  bodyReadErr : Option String
  createPasteBody : Except String CreatePasteRequest
  loginBody : Except String LoginRequest

/-- The payload written to the response. -/
inductive ResponseBody where
  | text (msg : String)
  | paste (p : Paste)
  | pastes (ps : List Paste)
  | login (r : LoginResponse)
  deriving DecidableEq, Repr

/-- An HTTP response: status code, the `Authorization` response header when set, body. -/
structure Response where
  status : Nat
  authorization : Option String
  body : ResponseBody
  deriving DecidableEq, Repr

/-- Go `http.Error(w, msg, code)`. -/
def httpError (msg : String) (code : Nat) : Response :=
  ⟨code, none, .text msg⟩

/-- A `http.HandlerFunc`: from the request and the world to the response and the world after. -/
abbrev Handler := Request → World → Response × World

/-! ## `internal/middleware/auth.go` -/

/-- Go `middleware.GetUserID`. -/
def GetUserID (ctx : Context) : String × Bool :=
  match ctx.user with
  | none => ("", false)
  | some token => (token.UID, true)

/-- Go `middleware.AuthMiddleware(authClient)(next)`. -/
def AuthMiddleware (authClient : AuthClient) (next : Handler) : Handler :=
  fun r w =>
    let authorizationHeader := r.Authorization
    if authorizationHeader = "" then
      (httpError "Authorization header required" 401, w)
    else
      let token := TrimPrefix authorizationHeader "Bearer "
      if token = authorizationHeader then
        (httpError "Invalid authorization format" 401, w)
      else
        match authClient.VerifyIDToken token with
        | .error err => (httpError ("Invalid token: " ++ err) 401, w)
        | .ok tokenVerified =>
          -- Add the verified token to the request context
          next { r with ctx := { user := some tokenVerified } } w

/-! ## `internal/api/pastes.go` -/

/-- Go `Collection("pastes").Doc(id).Get(ctx)`: the stored document, `none` for the
error Firestore returns when there is no such document. -/
def Firestore.GetPaste (fs : Firestore) (id : String) : Option PasteDoc :=
  fs.pastes.lookup id

/-- Go `Collection("pastes").Doc(id).Set(ctx, paste)` when the write goes through.
A later `DataTo` on the document gives back the paste that was written. -/
def Firestore.SetPaste (fs : Firestore) (id : String) (paste : Paste) : Firestore :=
  { fs with pastes := (id, .paste paste) :: fs.pastes }

/-- What the outside world supplies to one call of `CreatePaste`: the clock reading
of `time.Now()`, the string of `uuid.New()`, and the error of the Firestore `Set`
(`none` when the write succeeds). -/
structure CreateEnv where
  now : Nat
  uuid : String
  setErr : Option String
  deriving DecidableEq, Repr

/-- The block `if req.ContentType == models.ContentTypeImage { ... }` of `CreatePaste`
(lines 51-100): either the early `http.Error` response, or the request with the
`MimeType` and `Content` the block assigns. -/
def validateImage (req : CreatePasteRequest) : Except Response CreatePasteRequest :=
  if req.ContentType = ContentTypeImage then
    -- Check if the content is a data URL (e.g., data:image/png;base64,...)
    if HasPrefix req.Content "data:" then
      match Split req.Content ',' with
      | [parts0, parts1] =>
        match Split parts0 ':' with
        | [_, mimeInfo1] =>
          match Split mimeInfo1 ';' with
          | [mimeType0, mimeType1] =>
            if mimeType1 ≠ "base64" then
              .error (httpError "Only base64 encoded images are supported" 400)
            else
              match DecodeString parts1 with
              | .error err => .error (httpError ("Invalid base64 encoding: " ++ err.Error) 400)
              | .ok _ =>
                -- Store only the base64 part
                .ok { req with MimeType := mimeType0, Content := parts1 }
          | _ => .error (httpError "Only base64 encoded images are supported" 400)
        | _ => .error (httpError "Invalid image format" 400)
      | _ => .error (httpError "Invalid image format" 400)
    else
      -- If it is not a data URL, validate it as raw base64
      match DecodeString req.Content with
      | .error err => .error (httpError ("Invalid base64 encoding: " ++ err.Error) 400)
      | .ok _ =>
        -- If no MIME type was provided, use a default
        if req.MimeType = "" then .ok { req with MimeType := "image/png" }
        else .ok req
  else .ok req

/-- The struct literal `&models.Paste{...}` of `CreatePaste` (lines 106-116), from the
request as `validateImage` left it. -/
def newPaste (pasteID userID : String) (now : Nat) (req : CreatePasteRequest) : Paste :=
  { ID := pasteID
    UserID := userID
    Title := req.Title
    Content := req.Content
    ContentType := req.ContentType
    MimeType := req.MimeType
    CreatedAt := now
    UpdatedAt := now
    IsPublic := req.IsPublic }

/-- Go `(*PasteHandler).CreatePaste`. -/
def CreatePaste (env : CreateEnv) : Handler :=
  fun r w =>
    match GetUserID r.ctx with
    | (_, false) => (httpError "Unauthorized" 401, w)
    | (userID, true) =>
      match r.createPasteBody with
      | .error err => (httpError ("Invalid request body: " ++ err) 400, w)
      | .ok req =>
        if req.ContentType ≠ ContentTypeText ∧ req.ContentType ≠ ContentTypeImage then
          (httpError "Invalid content type" 400, w)
        else
          match validateImage req with
          | .error resp => (resp, w)
          | .ok req =>
            -- Create a new paste
            let now := env.now
            let pasteID := env.uuid
            let paste := newPaste pasteID userID now req
            -- Store the paste in Firestore
            match env.setErr with
            | some err =>
              (httpError ("Failed to store paste: " ++ err) 500,
                w.Println ("Error storing paste in Firestore: " ++ err))
            | none =>
              -- Return the created paste
              (⟨201, none, .paste paste⟩,
                { w with Firestore := w.Firestore.SetPaste pasteID paste })

/-- The block "For images, reconstruct the data URL if needed" that `GetPaste`
(lines 162-166) and `GetUserPastes` (lines 201-205) both apply to a paste read
from the store. -/
def reconstructDataURL (paste : Paste) : Paste :=
  if paste.ContentType = ContentTypeImage ∧ ¬ HasPrefix paste.Content "data:" then
    { paste with Content := sprintfDataURL paste.MimeType paste.Content }
  else paste

/-- Go `mux.Vars(r)[name]`: the empty string when the variable is not set. -/
def Request.Var (r : Request) (name : String) : String :=
  (r.Vars.lookup name).getD ""

/-- Go `(*PasteHandler).GetPaste`. -/
def GetPaste : Handler :=
  fun r w =>
    let pasteID := r.Var "id"
    match w.Firestore.GetPaste pasteID with
    | none =>
      (httpError "Paste not found" 404,
        w.Println "Error retrieving paste from Firestore: not found")
    | some .malformed =>
      (httpError "Error processing paste data" 500,
        w.Println "Error converting Firestore document to Paste: malformed")
    | some (.paste paste) =>
      -- Check if the paste is public or if the user is the owner
      if ¬ paste.IsPublic ∧ ((GetUserID r.ctx).2 = false ∨ (GetUserID r.ctx).1 ≠ paste.UserID) then
        (httpError "Unauthorized to access this paste" 403, w)
      else
        (⟨200, none, .paste (reconstructDataURL paste)⟩, w)

/-- The loop of `GetUserPastes` over the documents the query iterator yields. -/
def collectPastes : List PasteDoc → World → List Paste × World
  | [], w => ([], w)
  | .malformed :: docs, w =>
    -- Skip this paste and continue
    collectPastes docs (w.Println "Error converting Firestore document to Paste: malformed")
  | .paste paste :: docs, w =>
    let (pastes, w1) := collectPastes docs w
    (reconstructDataURL paste :: pastes, w1)

/-- Go `(*PasteHandler).GetUserPastes`.  `query userID` is the sequence of documents
that the iterator of
`Collection("pastes").Where("user_id", "==", userID).OrderBy("created_at", Desc)`
yields before its first error. -/
def GetUserPastes (query : Firestore → String → List PasteDoc) : Handler :=
  fun r w =>
    let w := w.Println "\n==== GET USER PASTES ROUTE ===="
    match GetUserID r.ctx with
    | (_, false) => (httpError "Unauthorized" 401, w)
    | (userID, true) =>
      let (pastes, w) := collectPastes (query w.Firestore userID) w
      (⟨200, none, .pastes pastes⟩, w)

/-! ## `internal/auth/firebase.go` -/

/-- Go `Collection("users").Doc(uid).Get(ctx)` followed by `userDoc.Data()`. -/
def Firestore.GetUser (fs : Firestore) (uid : String) : Option (List (String × FieldValue)) :=
  fs.users.lookup uid

/-- Go `userData[key].(string)`: the string and `true`, or `""` and `false` when the
key is missing or its value is not a string. -/
def stringField (userData : List (String × FieldValue)) (key : String) : String × Bool :=
  match userData.lookup key with
  | some (.str s) => (s, true)
  | _ => ("", false)

/-- What the outside world supplies to one call of `Login`: the clock reading. -/
structure LoginEnv where
  now : Nat
  deriving DecidableEq, Repr

/-- Go `(*FirebaseAuth).Login`. -/
def Login (authClient : AuthClient) (env : LoginEnv) : Handler :=
  fun r w =>
    if r.bodyReadErr ≠ none then (httpError "Error reading request body" 400, w)
    else
    match r.loginBody with
    | .error err =>
      (httpError ("Invalid request body: " ++ err) 400,
        w.Println ("Error decoding login JSON: " ++ err))
    | .ok loginReq =>
      match authClient.GetUserByEmail loginReq.Email with
      | .error err =>
        (httpError "Authentication failed" 401,
          w.Println ("Firebase error getting user: " ++ err))
      | .ok firebaseUser =>
        match w.Firestore.GetUser firebaseUser.UID with
        | none =>
          (httpError "Failed to retrieve user data" 500,
            w.Println "Firestore error getting user data: not found")
        | some userData =>
          match stringField userData "password_hash" with
          | (_, false) =>
            (httpError "User data incomplete" 500,
              w.Println "Error: password_hash not found in Firestore or not a string")
          | (storedPasswordHash, true) =>
            let w :=
              if loginReq.PasswordHash ≠ storedPasswordHash then
                (w.Println "Password hash mismatch, trying Firebase authentication...").Println
                  "WARNING: Password hash mismatch. Firebase Auth doesn't provide a direct way to verify passwords."
              else w
            match authClient.CustomToken firebaseUser.UID with
            | .error err =>
              (httpError ("Failed to create token: " ++ err) 500,
                w.Println ("Firebase error creating token: " ++ err))
            | .ok token =>
              match stringField userData "encrypted_symmetric_key" with
              | (_, false) =>
                (httpError "User data incomplete" 500,
                  w.Println "Error: encrypted_symmetric_key not found or not a string")
              | (encryptedSymmetricKey, true) =>
                let user : User :=
                  { ID := firebaseUser.UID, Email := firebaseUser.Email, CreatedAt := env.now }
                let response : LoginResponse :=
                  { User := user, AuthToken := token, EncryptedSymmetricKey := encryptedSymmetricKey }
                (⟨200, some ("Bearer " ++ token), .login response⟩, w)

/-! ## `cmd/pastepal/main.go`: the gorilla/mux route table

The matcher is modelled for clean request paths (no empty, `.` or `..` segment after
the leading slash); mux redirects the others before it matches anything. -/

/-- One segment of a path template: literal text, or a variable `{name}` that
matches any non-empty segment (the regular expression `[^/]+`). -/
inductive Seg where
  | lit (s : String)
  | var (name : String)
  deriving DecidableEq, Repr

/-- Reads one segment of a path template. -/
def parseSeg (s : String) : Seg :=
  match s.data with
  | '{' :: rest => if rest.getLast? = some '}' then .var ⟨rest.dropLast⟩ else .lit s
  | _ => .lit s

/-- Matches the segments of a template against the segments of a path, collecting
the route variables. -/
def matchSegs : List Seg → List String → Option (List (String × String))
  | [], [] => some []
  | .lit s :: tpl, p :: path => if s = p then matchSegs tpl path else none
  | .var name :: tpl, p :: path =>
    if p = "" then none else (matchSegs tpl path).map (fun vars => (name, p) :: vars)
  | _, _ => none

/-- The path matcher of a route registered with `HandleFunc(tpl, ...)`: the whole
path has to match the template. -/
def matchPath (tpl path : String) : Option (List (String × String)) :=
  matchSegs ((Split tpl '/').map parseSeg) (Split path '/')

/-- A route `HandleFunc(path, handler).Methods(method)`. -/
structure Route where
  path : String
  method : String
  handler : Handler

/-- An entry of the root router: a route, or `PathPrefix(pathPrefix).Subrouter()` with
the middleware given to `Use` and the routes registered on the subrouter. -/
inductive RouterEntry where
  | route (rt : Route)
  | subrouter (pathPrefix : String) (middlewares : List (Handler → Handler)) (routes : List Route)

/-- The first route of the list whose path and method both match the request: its
handler and the route variables. -/
def matchRoutes (pathPrefix : String) : List Route → Request → Option (Handler × List (String × String))
  | [], _ => none
  | rt :: rest, r =>
    match matchPath (pathPrefix ++ rt.path) r.Path with
    | some vars => if rt.method = r.Method then some (rt.handler, vars) else matchRoutes pathPrefix rest r
    | none => matchRoutes pathPrefix rest r

/-- Go `(*Router).Match` on the root router: entries are tried in registration order;
a subrouter matches when the path has its prefix and one of its own routes matches,
and only then is its middleware wrapped around the handler. -/
def routerMatch : List RouterEntry → Request → Option (Handler × List (String × String))
  | [], _ => none
  | .route rt :: rest, r =>
    match matchRoutes "" [rt] r with
    | some m => some m
    | none => routerMatch rest r
  | .subrouter pathPrefix middlewares routes :: rest, r =>
    if HasPrefix r.Path pathPrefix then
      match matchRoutes pathPrefix routes r with
      | some (h, vars) => some (middlewares.foldr (fun mw next => mw next) h, vars)
      | none => routerMatch rest r
    else routerMatch rest r

/-- Whether some route matches the path of the request, whatever its method. -/
def pathKnown : List RouterEntry → Request → Bool
  | [], _ => false
  | .route rt :: rest, r => (matchPath rt.path r.Path).isSome || pathKnown rest r
  | .subrouter pathPrefix _ routes :: rest, r =>
    (HasPrefix r.Path pathPrefix && routes.any (fun rt => (matchPath (pathPrefix ++ rt.path) r.Path).isSome))
      || pathKnown rest r

/-- Go `(*Router).ServeHTTP`: the matched handler runs on the request with its route
variables set; without a match the answer is 405 when only the method is wrong and
404 otherwise. -/
def ServeHTTP (router : List RouterEntry) : Handler :=
  fun r w =>
    match routerMatch router r with
    | some (h, vars) => h { r with Vars := vars } w
    | none =>
      if pathKnown router r then (httpError "" 405, w)
      else (httpError "404 page not found" 404, w)

/-- The router that `main` builds.  `register` stands for `firebaseAuth.Register`. -/
def mainRouter (authClient : AuthClient) (register : Handler) (loginEnv : LoginEnv)
    (createEnv : CreateEnv) (query : Firestore → String → List PasteDoc) : List RouterEntry :=
  [ -- Auth routes
    .route ⟨"/api/auth/register", "POST", register⟩,
    .route ⟨"/api/auth/login", "POST", Login authClient loginEnv⟩,
    -- Create a subrouter with auth middleware for protected routes
    .subrouter "/api" [AuthMiddleware authClient]
      [ ⟨"/pastes", "POST", CreatePaste createEnv⟩,
        ⟨"/pastes", "GET", GetUserPastes query⟩ ],
    -- Public route with auth check inside
    .route ⟨"/api/pastes/{id}", "GET", GetPaste⟩ ]

/-- A request as it arrives from the network, with an empty body: nothing in its
context, no route variables. -/
def incoming (method path authorization : String) : Request :=
  { Method := method
    Path := path
    Authorization := authorization
    ctx := Context.empty
    Vars := []
    bodyReadErr := none
    createPasteBody := .error "EOF"
    loginBody := .error "EOF" }

/-! ## What `DecodeString` accepts

The decoder accepts exactly the strings that, once the characters `\r` and `\n` are
taken out, are padded base64 in the sense of RFC 4648: groups of four alphabet
characters, the last group possibly ending in `=` or `==`
(`validBase64_eq_paddedBase64` below). -/

/-- A character of the base64 alphabet. -/
def isAlphabet (c : Char) : Bool :=
  (decodeMap c).isSome

/-- Padded base64 as in RFC 4648, section 4: groups of four alphabet characters, where
the last group may be two characters and `==`, or three characters and `=`. -/
def paddedBase64 : List Char → Bool
  | [] => true
  | a :: b :: c :: d :: rest =>
    isAlphabet a && isAlphabet b &&
      ((isAlphabet c && isAlphabet d && paddedBase64 rest) ||
        (rest.isEmpty && ((c = '=' && d = '=') || (isAlphabet c && d = '='))))
  | _ => false

/-- The input without the characters the decoder skips. -/
def stripNewlines (l : List Char) : List Char :=
  l.filter (fun c => !isNewline c)

/-- The grammar read one character at a time, `j` characters into a group. -/
def paddedFrom : Nat → List Char → Bool
  | j, [] => j = 0
  | j, c :: cs =>
    if isAlphabet c then paddedFrom ((j + 1) % 4) cs
    else if c = '=' then
      if j = 2 then cs = ['='] else if j = 3 then cs = [] else false
    else false

/-- Whether a result is not an error. -/
def isOk {ε α : Type} : Except ε α → Bool
  | .ok _ => true
  | .error _ => false

/-- The characters the decoder lets through: alphabet, newlines, padding. -/
def base64Char (c : Char) : Prop :=
  (decodeMap c).isSome = true ∨ isNewline c = true ∨ c = '='

/-! ## Predicates of the statements -/

/-- Condition (a) of claim C4, in the words of the claim: the content does not start
with `data:` and is valid standard base64. -/
def rawBase64Content (c : String) : Prop :=
  HasPrefix c "data:" = false ∧ validBase64 c = true

/-- Condition (b) of claim C4, in the words of the claim: the content is
`"data:" ++ mime ++ ";base64," ++ payload` with `mime` free of `:`, `;` and `,` and
`payload` valid standard base64. -/
def wellFormedDataURL (c : String) : Prop :=
  ∃ mime payload : String, c = "data:" ++ mime ++ ";base64," ++ payload ∧
    ':' ∉ mime.data ∧ ';' ∉ mime.data ∧ ',' ∉ mime.data ∧ validBase64 payload = true

/-- A path segment that can stand for `{id}` in a clean request path. -/
def cleanSegment (id : String) : Prop :=
  id ≠ "" ∧ '/' ∉ id.data ∧ id ≠ "." ∧ id ≠ ".."

/-! ## Sample inputs for the concrete instances -/

/-- A world with an empty database and nothing printed. -/
def emptyWorld : World := ⟨⟨[], []⟩, []⟩

/-- An environment in which the Firestore write succeeds. -/
def sampleEnv : CreateEnv := ⟨5, "id-1", none⟩

/-- A `POST /api/pastes` request as `CreatePaste` receives it behind the middleware:
the verified token in the context, the decoded body. -/
def createRequest (tok : Token) (req : CreatePasteRequest) : Request :=
  { incoming "POST" "/api/pastes" "Bearer t" with ctx := ⟨some tok⟩, createPasteBody := .ok req }

/-- A `GET /api/pastes/{id}` request as `GetPaste` receives it from the router, with
the given context. -/
def getRequest (id : String) (ctx : Context) : Request :=
  { incoming "GET" ("/api/pastes/" ++ id) "" with ctx := ctx, Vars := [("id", id)] }

/-- A credential store that knows one ID token, `tok` of `alice`, and rejects the
empty string the way the Firebase client does. -/
def sampleAuthClient : AuthClient :=
  { VerifyIDToken := fun t =>
      if t = "" then .error "ID token must be a non-empty string"
      else if t = "tok" then .ok ⟨"alice"⟩
      else .error "failed to verify token signature"
    GetUserByEmail := fun _ => .error "user not found"
    CustomToken := fun _ => .error "unavailable" }

/-- A next handler that answers 200 with the caller identity it finds in the context. -/
def echoCaller : Handler :=
  fun r w => (⟨200, none, .text (GetUserID r.ctx).1⟩, w)

/-- A `POST /api/auth/login` request with the given decoded body. -/
def loginRequest (req : LoginRequest) : Request :=
  { incoming "POST" "/api/auth/login" "" with loginBody := .ok req }

/-! ## Lemmas on the library functions -/

/-- Without a separator in the input there is one piece. -/
theorem splitChars_of_not_mem (sep : Char) (l cur : List Char) (h : sep ∉ l) :
    splitChars sep cur l = [cur ++ l] := by
  induction l generalizing cur with
  | nil => simp [splitChars]
  | cons c cs ih =>
    have hc : c ≠ sep := fun e => h (by simp [e])
    have hcs : sep ∉ cs := fun e => h (by simp [e])
    simp [splitChars, hc, ih _ hcs]

/-- The first separator ends the first piece. -/
theorem splitChars_append (sep : Char) (a b cur : List Char) (h : sep ∉ a) :
    splitChars sep cur (a ++ sep :: b) = (cur ++ a) :: splitChars sep [] b := by
  induction a generalizing cur with
  | nil => simp [splitChars]
  | cons c cs ih =>
    have hc : c ≠ sep := fun e => h (by simp [e])
    have hcs : sep ∉ cs := fun e => h (by simp [e])
    simp [splitChars, hc, ih _ hcs]

/-- There is always at least one piece. -/
theorem splitChars_ne_nil (sep : Char) (l cur : List Char) : splitChars sep cur l ≠ [] := by
  by_cases h : sep ∈ l
  · obtain ⟨a, b, rfl, ha⟩ := List.eq_append_cons_of_mem h
    simp [splitChars_append sep a b cur ha]
  · simp [splitChars_of_not_mem sep l cur h]

/-- One piece: the input has no separator. -/
theorem splitChars_eq_singleton (sep : Char) (l a : List Char) :
    splitChars sep [] l = [a] ↔ l = a ∧ sep ∉ a := by
  constructor
  · intro h
    by_cases hm : sep ∈ l
    · obtain ⟨x, y, rfl, hx⟩ := List.eq_append_cons_of_mem hm
      rw [splitChars_append sep x y [] hx] at h
      simp [splitChars_ne_nil] at h
    · rw [splitChars_of_not_mem sep l [] hm] at h
      simp at h
      subst h
      exact ⟨rfl, hm⟩
  · rintro ⟨rfl, h⟩
    simpa using splitChars_of_not_mem sep l [] h

/-- Two pieces: the input has exactly one separator, between them. -/
theorem splitChars_eq_pair (sep : Char) (l a b : List Char) :
    splitChars sep [] l = [a, b] ↔ l = a ++ sep :: b ∧ sep ∉ a ∧ sep ∉ b := by
  constructor
  · intro h
    by_cases hm : sep ∈ l
    · obtain ⟨x, y, rfl, hx⟩ := List.eq_append_cons_of_mem hm
      rw [splitChars_append sep x y [] hx] at h
      simp only [List.nil_append, List.cons.injEq] at h
      obtain ⟨rfl, hy⟩ := h
      obtain ⟨rfl, hb⟩ := (splitChars_eq_singleton sep y b).1 hy
      exact ⟨rfl, hx, hb⟩
    · rw [splitChars_of_not_mem sep l [] hm] at h
      simp at h
  · rintro ⟨rfl, ha, hb⟩
    rw [splitChars_append sep a b [] ha, splitChars_of_not_mem sep b [] hb]
    simp

/-- The same for `Split`: two pieces exactly when the string is the first piece, the
separator and the second piece, and neither piece holds a separator. -/
theorem Split_eq_pair (sep : Char) (s p q : String) :
    Split s sep = [p, q] ↔ s = p ++ String.singleton sep ++ q ∧ sep ∉ p.data ∧ sep ∉ q.data := by
  have key : Split s sep = [p, q] ↔ splitChars sep [] s.data = [p.data, q.data] := by
    unfold Split
    constructor
    · intro h
      have := congrArg (List.map String.data) h
      simpa [List.map_map, Function.comp_def] using this
    · intro h
      rw [h]
      rfl
  rw [key, splitChars_eq_pair]
  constructor
  · rintro ⟨h, hp, hq⟩
    refine ⟨String.ext ?_, hp, hq⟩
    simp [h, String.singleton]
  · rintro ⟨rfl, hp, hq⟩
    refine ⟨?_, hp, hq⟩
    simp [String.singleton]

/-- Two ways of cutting a list at a first separator agree. -/
theorem first_sep_unique (sep : Char) (a a1 b b1 : List Char) (ha : sep ∉ a) (ha1 : sep ∉ a1)
    (h : a ++ sep :: b = a1 ++ sep :: b1) : a = a1 ∧ b = b1 := by
  induction a generalizing a1 with
  | nil =>
    cases a1 with
    | nil => simpa using h
    | cons x xs =>
      simp at h
      exact absurd (by simp [h.1]) ha1
  | cons c cs ih =>
    cases a1 with
    | nil =>
      simp at h
      exact absurd (by simp [h.1]) ha
    | cons x xs =>
      simp at h
      obtain ⟨rfl, h2⟩ := h
      have := ih xs (fun e => ha (by simp [e])) (fun e => ha1 (by simp [e])) h2
      simp [this.1, this.2]

/-- Every character that `skipNewlines` passes over is a newline. -/
theorem mem_skipNewlines (si : Nat) (l : List Char) (c : Char) (h : c ∈ l) :
    isNewline c = true ∨ c ∈ (skipNewlines si l).2 := by
  induction l generalizing si with
  | nil => simp at h
  | cons x xs ih =>
    unfold skipNewlines
    by_cases hx : isNewline x = true
    · simp only [hx, if_true]
      rcases List.mem_cons.1 h with rfl | h1
      · exact Or.inl hx
      · exact ih (si + 1) h1
    · simp only [hx]
      exact Or.inr h

/-- An input that decodes holds nothing but alphabet characters, newlines and padding. -/
theorem decodeFrom_ok_chars (src : List Char) (si : Nat) (dbuf bs : List Nat)
    (h : decodeFrom si dbuf src = .ok bs) : ∀ c ∈ src, base64Char c := by
  induction src generalizing si dbuf bs with
  | nil => simp
  | cons x xs ih =>
    intro c hc
    unfold decodeFrom at h
    cases hx : decodeMap x with
    | some out =>
      rw [hx] at h
      rcases List.mem_cons.1 hc with rfl | hc1
      · exact Or.inl (by simp [hx])
      · by_cases h3 : dbuf.length = 3
        · simp only [h3, if_true] at h
          cases hr : decodeFrom (si + 1) [] xs with
          | error e => rw [hr] at h; simp [Except.map] at h
          | ok rest => exact ih _ _ _ hr c hc1
        · simp only [h3, if_false] at h
          exact ih _ _ _ h c hc1
    | none =>
      rw [hx] at h
      by_cases hnl : isNewline x = true
      · simp only [hnl, if_true] at h
        rcases List.mem_cons.1 hc with rfl | hc1
        · exact Or.inr (Or.inl hnl)
        · exact ih _ _ _ h c hc1
      · by_cases hpad : x = '='
        · subst hpad
          rcases List.mem_cons.1 hc with rfl | hc1
          · exact Or.inr (Or.inr rfl)
          · simp only [hnl] at h
            by_cases h2 : dbuf.length < 2
            · simp [h2] at h
            · by_cases h22 : dbuf.length = 2
              · simp only [h22] at h
                rcases mem_skipNewlines (si + 1) xs c hc1 with hn | hm
                · exact Or.inr (Or.inl hn)
                · rcases hs : skipNewlines (si + 1) xs with ⟨si1, rest⟩
                  rw [hs] at h hm
                  cases rest with
                  | nil => simp at hm
                  | cons d ds =>
                    by_cases hd : d = '='
                    · subst hd
                      rcases List.mem_cons.1 hm with rfl | hm1
                      · exact Or.inr (Or.inr rfl)
                      · rcases mem_skipNewlines (si1 + 1) ds c hm1 with hn | hm2
                        · exact Or.inr (Or.inl hn)
                        · dsimp only at h
                          rcases hs2 : skipNewlines (si1 + 1) ds with ⟨si2, rest2⟩
                          rw [hs2] at h hm2
                          cases rest2 with
                          | nil => simp at hm2
                          | cons e es => simp at h
                    · simp [hd] at h
              · simp only [h2, h22] at h
                rcases mem_skipNewlines (si + 1) xs c hc1 with hn | hm
                · exact Or.inr (Or.inl hn)
                · rcases hs : skipNewlines (si + 1) xs with ⟨si1, rest⟩
                  rw [hs] at h hm
                  cases rest with
                  | nil => simp at hm
                  | cons d ds => simp at h
        · simp [hnl, hpad] at h

/-- A character outside the alphabet that is neither a newline nor the padding does
not occur in valid base64. -/
theorem not_mem_of_validBase64 (s : String) (c : Char) (hv : validBase64 s = true)
    (hc : ¬ base64Char c) : c ∉ s.data := by
  unfold validBase64 DecodeString at hv
  cases hd : decodeFrom 0 [] s.data with
  | error e => rw [hd] at hv; simp at hv
  | ok bs => exact fun hm => hc (decodeFrom_ok_chars _ _ _ _ hd c hm)

/-- A comma is not a base64 character. -/
theorem comma_not_base64 : ¬ base64Char ',' := by
  unfold base64Char; decide

/-- A colon is not a base64 character. -/
theorem colon_not_base64 : ¬ base64Char ':' := by
  unfold base64Char; decide

/-- Go `strings.HasPrefix` holds exactly of the strings that continue the prefix. -/
theorem HasPrefix_iff (s pre : String) : HasPrefix s pre = true ↔ ∃ t : String, s = pre ++ t := by
  unfold HasPrefix
  rw [List.isPrefixOf_iff_prefix]
  constructor
  · rintro ⟨t, ht⟩
    exact ⟨⟨t⟩, String.ext (by simp [ht])⟩
  · rintro ⟨t, rfl⟩
    exact ⟨t.data, by simp⟩

/-- Valid base64 never starts with `data:` (the colon is not a base64 character). -/
theorem not_HasPrefix_data_of_validBase64 (s : String) (hv : validBase64 s = true) :
    HasPrefix s "data:" = false := by
  cases hp : HasPrefix s "data:" with
  | false => rfl
  | true =>
    obtain ⟨t, rfl⟩ := (HasPrefix_iff _ _).1 hp
    exact absurd (by simp) (not_mem_of_validBase64 _ ':' hv colon_not_base64)

/-- Go `strings.TrimPrefix` removes a prefix that is there. -/
theorem TrimPrefix_append (pre t : String) : TrimPrefix (pre ++ t) pre = t := by
  have hp : HasPrefix (pre ++ t) pre = true := (HasPrefix_iff _ _).2 ⟨t, rfl⟩
  unfold TrimPrefix
  rw [if_pos hp]
  apply String.ext
  simp

/-- A string is not the same string behind `Bearer `. -/
theorem ne_bearer_append (token : String) : token ≠ "Bearer " ++ token := by
  intro h
  have hl := congrArg String.length h
  simp at hl
  exact absurd hl (by decide)

/-- The pieces of the path `/api/pastes/<id>`. -/
theorem Split_paste_path (id : String) (h : '/' ∉ id.data) :
    Split ("/api/pastes/" ++ id) '/' = ["", "api", "pastes", id] := by
  have hd : ("/api/pastes/" ++ id).data
      = [] ++ '/' :: (['a', 'p', 'i'] ++ '/' :: (['p', 'a', 's', 't', 'e', 's'] ++ '/' :: id.data)) := by
    rw [String.data_append]; rfl
  unfold Split
  rw [hd, splitChars_append _ _ _ _ (by decide), splitChars_append _ _ _ _ (by decide),
    splitChars_append _ _ _ _ (by decide), splitChars_of_not_mem _ _ _ h]
  rfl

/-! ## What `DecodeString` accepts: padded base64 up to newlines -/

/-- An alphabet character is not one of the skipped characters. -/
theorem isAlphabet_not_newline (c : Char) (h : isAlphabet c = true) : isNewline c = false := by
  cases hn : isNewline c with
  | false => rfl
  | true =>
    simp only [isNewline, Bool.or_eq_true, decide_eq_true_eq] at hn
    rcases hn with rfl | rfl <;> revert h <;> decide

/-- An alphabet character is not the padding character. -/
theorem isAlphabet_not_pad (c : Char) (h : isAlphabet c = true) : c ≠ '=' := by
  rintro rfl
  revert h
  decide

/-- Nothing is left after `skipNewlines` exactly when the input is all newlines. -/
theorem skipNewlines_nil (si : Nat) (l : List Char) :
    (skipNewlines si l).2 = [] ↔ stripNewlines l = [] := by
  induction l generalizing si with
  | nil => simp [skipNewlines, stripNewlines]
  | cons x xs ih =>
    unfold skipNewlines
    by_cases hx : isNewline x = true
    · simp only [hx, if_true]
      rw [ih]
      simp [stripNewlines, hx]
    · simp [stripNewlines, hx]

/-- What is left after `skipNewlines` starts with the first character that is kept. -/
theorem skipNewlines_cons (si : Nat) (l : List Char) (d : Char) (ds : List Char)
    (h : (skipNewlines si l).2 = d :: ds) :
    isNewline d = false ∧ stripNewlines l = d :: stripNewlines ds := by
  induction l generalizing si with
  | nil => simp [skipNewlines] at h
  | cons x xs ih =>
    unfold skipNewlines at h
    by_cases hx : isNewline x = true
    · simp only [hx, if_true] at h
      have := ih _ h
      refine ⟨this.1, ?_⟩
      simp [stripNewlines, hx] at this ⊢
      exact this.2
    · simp only [hx] at h
      simp at h
      obtain ⟨rfl, rfl⟩ := h
      simp [stripNewlines, hx]

/-- The decoder, `j` characters into a group, succeeds exactly when the grammar read
from position `j` accepts the input without its newlines. -/
theorem decodeFrom_isOk (src : List Char) (si : Nat) (dbuf : List Nat) (hj : dbuf.length ≤ 3) :
    isOk (decodeFrom si dbuf src) = paddedFrom dbuf.length (stripNewlines src) := by
  induction src generalizing si dbuf with
  | nil =>
    unfold decodeFrom
    by_cases h0 : dbuf.length = 0 <;> simp [h0, isOk, stripNewlines, paddedFrom]
  | cons x xs ih =>
    unfold decodeFrom
    cases hx : decodeMap x with
    | some out =>
      have ha : isAlphabet x = true := by simp [isAlphabet, hx]
      have hn := isAlphabet_not_newline x ha
      have hs : stripNewlines (x :: xs) = x :: stripNewlines xs := by simp [stripNewlines, hn]
      rw [hs]
      simp only [paddedFrom, ha, if_true]
      by_cases h3 : dbuf.length = 3
      · simp only [h3, if_true]
        have := ih (si + 1) [] (by simp)
        simp only [List.length_nil] at this
        rw [← this]
        cases decodeFrom (si + 1) [] xs <;> simp [isOk, Except.map]
      · simp only [h3, if_false]
        have hlt : dbuf.length + 1 ≤ 3 := by omega
        have := ih (si + 1) (dbuf ++ [out]) (by simpa using hlt)
        rw [this]
        have hm : (dbuf.length + 1) % 4 = dbuf.length + 1 := by omega
        simp [hm]
    | none =>
      have ha : isAlphabet x = false := by simp [isAlphabet, hx]
      by_cases hnl : isNewline x = true
      · have hs : stripNewlines (x :: xs) = stripNewlines xs := by simp [stripNewlines, hnl]
        simp only [hnl, if_true, hs]
        exact ih (si + 1) dbuf hj
      · have hs : stripNewlines (x :: xs) = x :: stripNewlines xs := by simp [stripNewlines, hnl]
        rw [hs]
        simp only [hnl, paddedFrom, ha]
        by_cases hpad : x = '='
        · subst hpad
          by_cases h2 : dbuf.length < 2
          · have e2 : dbuf.length ≠ 2 := by omega
            have e3 : dbuf.length ≠ 3 := by omega
            simp [h2, e2, e3, isOk]
          · by_cases h22 : dbuf.length = 2
            · simp only [h22]
              rcases hs1 : skipNewlines (si + 1) xs with ⟨si1, rest⟩
              cases rest with
              | nil =>
                have := (skipNewlines_nil (si + 1) xs).1 (by rw [hs1])
                simp [this, isOk]
              | cons d ds =>
                obtain ⟨-, hsd⟩ := skipNewlines_cons (si + 1) xs d ds (by rw [hs1])
                by_cases hd : d = '='
                · subst hd
                  rcases hs2 : skipNewlines (si1 + 1) ds with ⟨si2, rest2⟩
                  cases rest2 with
                  | nil =>
                    have := (skipNewlines_nil (si1 + 1) ds).1 (by rw [hs2])
                    simp [hsd, hs2, this, isOk]
                  | cons e es =>
                    obtain ⟨-, hse⟩ := skipNewlines_cons (si1 + 1) ds e es (by rw [hs2])
                    simp [hsd, hs2, hse, isOk]
                · simp [hsd, hd, isOk]
            · have e3 : dbuf.length = 3 := by omega
              simp only [e3]
              rcases hs1 : skipNewlines (si + 1) xs with ⟨si1, rest⟩
              cases rest with
              | nil =>
                have := (skipNewlines_nil (si + 1) xs).1 (by rw [hs1])
                simp [this, isOk]
              | cons d ds =>
                obtain ⟨-, hsd⟩ := skipNewlines_cons (si + 1) xs d ds (by rw [hs1])
                simp [hsd, isOk]
        · simp [hpad, isOk]

/-- Reading the grammar one character at a time from the start of a group is the
grammar by groups of four. -/
theorem paddedFrom_zero : ∀ l : List Char, paddedFrom 0 l = paddedBase64 l
  | [] => by simp [paddedFrom, paddedBase64]
  | [a] => by
    by_cases ha : isAlphabet a = true <;> simp [paddedFrom, paddedBase64, ha]
  | [a, b] => by
    by_cases ha : isAlphabet a = true <;> by_cases hb : isAlphabet b = true <;>
      simp [paddedFrom, paddedBase64, ha, hb]
  | [a, b, c] => by
    by_cases ha : isAlphabet a = true <;> by_cases hb : isAlphabet b = true <;>
      by_cases hc : isAlphabet c = true <;> simp [paddedFrom, paddedBase64, ha, hb, hc]
  | a :: b :: c :: d :: rest => by
    have ih := paddedFrom_zero rest
    have hp : isAlphabet '=' = false := by decide
    by_cases ha : isAlphabet a = true
    · by_cases hb : isAlphabet b = true
      · by_cases hc : isAlphabet c = true
        · have hc1 := isAlphabet_not_pad c hc
          by_cases hd : isAlphabet d = true
          · have hd1 := isAlphabet_not_pad d hd
            simp [paddedFrom, paddedBase64, hp, ha, hb, hc, hd, ih, hc1, hd1]
          · by_cases hd1 : d = '='
            · cases rest <;> simp [paddedFrom, paddedBase64, hp, ha, hb, hc, hd, hc1, hd1]
            · simp [paddedFrom, paddedBase64, hp, ha, hb, hc, hd, hc1, hd1]
        · by_cases hc1 : c = '='
          · by_cases hd1 : d = '='
            · cases rest <;> simp [paddedFrom, paddedBase64, hp, ha, hb, hc, hc1, hd1]
            · simp [paddedFrom, paddedBase64, hp, ha, hb, hc, hc1, hd1]
          · simp [paddedFrom, paddedBase64, hp, ha, hb, hc, hc1]
      · simp [paddedFrom, paddedBase64, hp, ha, hb]
    · simp [paddedFrom, paddedBase64, hp, ha]

/-- The decoder accepts a string exactly when the string without `\r` and `\n` is
padded base64 in the sense of RFC 4648. -/
theorem validBase64_eq_paddedBase64 (s : String) :
    validBase64 s = paddedBase64 (stripNewlines s.data) := by
  have h := decodeFrom_isOk s.data 0 [] (by simp)
  rw [List.length_nil, paddedFrom_zero] at h
  rw [← h]
  unfold validBase64 DecodeString
  cases decodeFrom 0 [] s.data <;> rfl

/-! ## Lemmas on the handlers and the router -/

/-- The data-URL branch of `validateImage` on a well-formed data URL. -/
theorem validateImage_dataURL (req : CreatePasteRequest) (mime payload : String)
    (hk : req.ContentType = ContentTypeImage)
    (hc : req.Content = "data:" ++ mime ++ ";base64," ++ payload)
    (h1 : ':' ∉ mime.data) (h2 : ';' ∉ mime.data) (h3 : ',' ∉ mime.data)
    (hv : validBase64 payload = true) :
    validateImage req = .ok { req with MimeType := mime, Content := payload } := by
  have hp : HasPrefix req.Content "data:" = true :=
    (HasPrefix_iff _ _).2 ⟨mime ++ ";base64," ++ payload, by simp [hc, String.append_assoc]⟩
  have hcomma : ',' ∉ payload.data := not_mem_of_validBase64 payload ',' hv comma_not_base64
  have s1 : Split req.Content ',' = ["data:" ++ mime ++ ";base64", payload] := by
    rw [Split_eq_pair]
    refine ⟨?_, ?_, hcomma⟩
    · rw [hc]; apply String.ext; simp [String.singleton]
    · simp [h3]
  have s2 : Split ("data:" ++ mime ++ ";base64") ':' = ["data", mime ++ ";base64"] := by
    rw [Split_eq_pair]
    refine ⟨?_, ?_, ?_⟩
    · apply String.ext; simp [String.singleton]
    · decide
    · simp [h1]
  have s3 : Split (mime ++ ";base64") ';' = [mime, "base64"] := by
    rw [Split_eq_pair]
    refine ⟨?_, h2, ?_⟩
    · apply String.ext; simp [String.singleton]
    · decide
  unfold validBase64 at hv
  cases hd : DecodeString payload with
  | error e => rw [hd] at hv; simp at hv
  | ok bs =>
    unfold validateImage
    simp [hk, hp, s1, s2, s3, hd]

/-- The raw branch of `validateImage` on valid base64 that is not a data URL. -/
theorem validateImage_raw (req : CreatePasteRequest)
    (hk : req.ContentType = ContentTypeImage)
    (hp : HasPrefix req.Content "data:" = false)
    (hv : validBase64 req.Content = true) :
    validateImage req =
      .ok (if req.MimeType = "" then { req with MimeType := "image/png" } else req) := by
  unfold validBase64 at hv
  cases hd : DecodeString req.Content with
  | error e => rw [hd] at hv; simp at hv
  | ok bs =>
    unfold validateImage
    by_cases hm : req.MimeType = "" <;> simp [hk, hp, hd, hm]

/-- Every early return of `validateImage` is a 400. -/
theorem validateImage_error_status (req : CreatePasteRequest) (resp : Response)
    (h : validateImage req = .error resp) : resp.status = 400 := by
  unfold validateImage at h
  repeat' split at h
  all_goals first | (cases h; rfl) | cases h

/-- What `validateImage` lets through as an image is valid raw base64 without the
`data:` prefix, or a well-formed data URL. -/
theorem validateImage_ok_inv (req r : CreatePasteRequest)
    (hk : req.ContentType = ContentTypeImage) (h : validateImage req = .ok r) :
    (HasPrefix req.Content "data:" = false ∧ validBase64 req.Content = true) ∨
    (∃ mime payload : String, req.Content = "data:" ++ mime ++ ";base64," ++ payload ∧
      ':' ∉ mime.data ∧ ';' ∉ mime.data ∧ ',' ∉ mime.data ∧ validBase64 payload = true) := by
  unfold validateImage at h
  simp only [hk, if_true] at h
  by_cases hp : HasPrefix req.Content "data:" = true
  · simp only [hp, if_true] at h
    split at h
    · rename_i parts0 parts1 hs1
      split at h
      · rename_i x mimeInfo1 hs2
        split at h
        · rename_i mimeType0 mimeType1 hs3
          split at h
          · cases h
          · rename_i hb
            split at h
            · cases h
            · rename_i bs hd
              right
              have hb1 : mimeType1 = "base64" := by simpa using hb
              subst hb1
              obtain ⟨e1, c0, _⟩ := (Split_eq_pair _ _ _ _).1 hs1
              obtain ⟨e2, k0, k1⟩ := (Split_eq_pair _ _ _ _).1 hs2
              obtain ⟨e3, m0, _⟩ := (Split_eq_pair _ _ _ _).1 hs3
              obtain ⟨t, ht⟩ := (HasPrefix_iff _ _).1 hp
              have hx : x.data = "data".data := by
                have hl : x.data ++ ':' :: (mimeInfo1.data ++ ',' :: parts1.data)
                    = "data".data ++ ':' :: t.data := by
                  have := congrArg String.data (e1.symm.trans ht)
                  rw [e2] at this
                  simpa [String.singleton] using this
                exact (first_sep_unique ':' _ _ _ _ k0 (by decide) hl).1
              have hx1 : x = "data" := String.ext hx
              subst hx1
              refine ⟨mimeType0, parts1, ?_, ?_, m0, ?_, ?_⟩
              · rw [e1, e2, e3]
                apply String.ext
                simp [String.singleton]
              · intro hm
                exact k1 (by rw [e3]; simp [hm])
              · intro hm
                exact c0 (by rw [e2, e3]; simp [hm])
              · unfold validBase64
                rw [hd]
        · cases h
      · cases h
    · cases h
  · left
    have hp1 : HasPrefix req.Content "data:" = false := by simpa using hp
    refine ⟨hp1, ?_⟩
    cases hd : DecodeString req.Content with
    | error e => simp [hp1, hd] at h
    | ok bs => simp [validBase64, hd]

/-- The decode step on a stored image whose content has no `data:` prefix. -/
theorem reconstructDataURL_image (paste : Paste) (hk : paste.ContentType = ContentTypeImage)
    (hp : HasPrefix paste.Content "data:" = false) :
    reconstructDataURL paste =
      { paste with Content := "data:" ++ paste.MimeType ++ ";base64," ++ paste.Content } := by
  simp [reconstructDataURL, hk, hp, sprintfDataURL]

/-- The decode step leaves a text paste alone. -/
theorem reconstructDataURL_text (paste : Paste) (hk : paste.ContentType = ContentTypeText) :
    reconstructDataURL paste = paste := by
  have : ContentTypeText ≠ ContentTypeImage := by decide
  simp [reconstructDataURL, hk, this]

/-- The handler `CreatePaste` once the caller is known, the body decoded, the content
kind checked and `validateImage` passed: the paste is built and written. -/
theorem CreatePaste_of_validate (env : CreateEnv) (r : Request) (w : World) (tok : Token)
    (req req1 : CreatePasteRequest)
    (hctx : r.ctx.user = some tok) (hbody : r.createPasteBody = .ok req)
    (hk : req.ContentType = ContentTypeText ∨ req.ContentType = ContentTypeImage)
    (hval : validateImage req = .ok req1) (hset : env.setErr = none) :
    CreatePaste env r w =
      (⟨201, none, .paste (newPaste env.uuid tok.UID env.now req1)⟩,
        { w with Firestore :=
            w.Firestore.SetPaste env.uuid (newPaste env.uuid tok.UID env.now req1) }) := by
  have hk1 : ¬ (req.ContentType ≠ ContentTypeText ∧ req.ContentType ≠ ContentTypeImage) := by
    rcases hk with h | h <;> simp [h]
  simp only [CreatePaste, GetUserID, hctx, hbody, hval, hset]
  rw [if_neg hk1]

/-- The handler `GetPaste` on a stored paste that the caller may read. -/
theorem GetPaste_allowed (g : Request) (w : World) (paste : Paste)
    (hget : w.Firestore.GetPaste (g.Var "id") = some (.paste paste))
    (hok : paste.IsPublic = true ∨ ∃ tok, g.ctx.user = some tok ∧ tok.UID = paste.UserID) :
    GetPaste g w = (⟨200, none, .paste (reconstructDataURL paste)⟩, w) := by
  unfold GetPaste
  simp only [hget]
  rcases hok with h | ⟨tok, h1, h2⟩
  · simp [h]
  · simp [GetUserID, h1, h2]

/-- The handler `GetPaste` on a stored paste that the caller may not read. -/
theorem GetPaste_forbidden (g : Request) (w : World) (paste : Paste)
    (hget : w.Firestore.GetPaste (g.Var "id") = some (.paste paste))
    (hpriv : paste.IsPublic = false)
    (hno : ¬ ∃ tok, g.ctx.user = some tok ∧ tok.UID = paste.UserID) :
    GetPaste g w = (httpError "Unauthorized to access this paste" 403, w) := by
  unfold GetPaste
  simp only [hget]
  cases hu : g.ctx.user with
  | none => simp [GetUserID, hu, hpriv]
  | some tok =>
    have : tok.UID ≠ paste.UserID := fun e => hno ⟨tok, hu, e⟩
    simp [GetUserID, hu, hpriv, this]

/-- Reading back the document that was just written. -/
theorem GetPaste_SetPaste (fs : Firestore) (id : String) (paste : Paste) :
    (fs.SetPaste id paste).GetPaste id = some (.paste paste) := by
  simp [Firestore.SetPaste, Firestore.GetPaste, List.lookup]

/-- The handler `GetUserPastes` when the query yields one well-formed document. -/
theorem GetUserPastes_single (query : Firestore → String → List PasteDoc) (g : Request)
    (w : World) (tok : Token) (paste : Paste)
    (hctx : g.ctx.user = some tok) (hq : query w.Firestore tok.UID = [.paste paste]) :
    (GetUserPastes query g w).1 = ⟨200, none, .pastes [reconstructDataURL paste]⟩ := by
  simp [GetUserPastes, GetUserID, hctx, World.Println, hq, collectPastes]

/-- A 201 from `CreatePaste` means: a caller in the context, `validateImage` passed,
the write succeeded, and the paste built from the validated request was stored. -/
theorem CreatePaste_created_inv (env : CreateEnv) (r : Request) (w : World)
    (req : CreatePasteRequest) (hbody : r.createPasteBody = .ok req)
    (h201 : (CreatePaste env r w).1.status = 201) :
    ∃ (tok : Token) (req1 : CreatePasteRequest),
      r.ctx.user = some tok ∧ validateImage req = .ok req1 ∧ env.setErr = none ∧
      CreatePaste env r w =
        (⟨201, none, .paste (newPaste env.uuid tok.UID env.now req1)⟩,
          { w with Firestore :=
              (w.Firestore.SetPaste env.uuid (newPaste env.uuid tok.UID env.now req1)) }) := by
  cases hu : r.ctx.user with
  | none => simp [CreatePaste, GetUserID, hu, httpError] at h201
  | some tok =>
    by_cases hk : req.ContentType ≠ ContentTypeText ∧ req.ContentType ≠ ContentTypeImage
    · simp [CreatePaste, GetUserID, hu, hbody, hk, httpError] at h201
    · cases hval : validateImage req with
      | error resp =>
        have h400 := validateImage_error_status req resp hval
        simp only [CreatePaste, GetUserID, hu, hbody, hval] at h201
        rw [if_neg hk] at h201
        simp [h400] at h201
      | ok req1 =>
        cases hset : env.setErr with
        | some err =>
          simp only [CreatePaste, GetUserID, hu, hbody, hval, hset] at h201
          rw [if_neg hk] at h201
          simp [httpError] at h201
        | none =>
          refine ⟨tok, req1, rfl, rfl, rfl, ?_⟩
          have hk1 : req.ContentType = ContentTypeText ∨ req.ContentType = ContentTypeImage := by
            by_contra hcon
            rw [not_or] at hcon
            exact hk hcon
          exact CreatePaste_of_validate env r w tok req req1 hu hbody hk1 hval hset

/-- The middleware on a header `Bearer <token>`: the token goes to the verifier. -/
theorem AuthMiddleware_bearer (authClient : AuthClient) (next : Handler) (r : Request)
    (w : World) (token : String) (h : r.Authorization = "Bearer " ++ token) :
    AuthMiddleware authClient next r w =
      match authClient.VerifyIDToken token with
      | .error err => (httpError ("Invalid token: " ++ err) 401, w)
      | .ok tokenVerified => next { r with ctx := ⟨some tokenVerified⟩ } w := by
  have hne : "Bearer " ++ token ≠ "" := by
    intro h0
    have hl := congrArg String.length h0
    simp at hl
    exact absurd hl.1 (by decide)
  simp [AuthMiddleware, h, hne, TrimPrefix_append, ne_bearer_append token]

/-- The middleware has no test of its own for an empty token: on the header `Bearer `
the empty string goes to the verifier, whose answer decides. -/
theorem AuthMiddleware_empty_token (authClient : AuthClient) (next : Handler) (r : Request)
    (w : World) (h : r.Authorization = "Bearer ") :
    AuthMiddleware authClient next r w =
      match authClient.VerifyIDToken "" with
      | .error err => (httpError ("Invalid token: " ++ err) 401, w)
      | .ok tokenVerified => next { r with ctx := ⟨some tokenVerified⟩ } w :=
  AuthMiddleware_bearer authClient next r w "" (by rw [h]; rfl)

/-- The middleware on the sample credential store: the token `tok` lets the next
handler run with the identity `alice` in its context, the empty token is answered 401. -/
theorem AuthMiddleware_sample :
    AuthMiddleware sampleAuthClient echoCaller (incoming "GET" "/api/pastes" "Bearer tok")
        emptyWorld = (⟨200, none, .text "alice"⟩, emptyWorld) ∧
    AuthMiddleware sampleAuthClient echoCaller (incoming "GET" "/api/pastes" "Bearer ")
        emptyWorld =
      (httpError "Invalid token: ID token must be a non-empty string" 401, emptyWorld) := by
  constructor <;> decide

/-- The comparison of the hashes is not without effect: a mismatch prints the two
warning lines, and the answer is the 200 of a matching login. -/
theorem Login_mismatch_logged :
    Login ⟨fun _ => .error "", fun _ => .ok ⟨"u1", "a@x.com"⟩, fun _ => .ok "tok"⟩ ⟨9⟩
        (loginRequest ⟨"a@x.com", "other"⟩)
        ⟨⟨[], [("u1", [("password_hash", .str "h1"), ("encrypted_symmetric_key", .str "k1")])]⟩,
          []⟩ =
      (⟨200, some "Bearer tok", .login ⟨⟨"u1", "a@x.com", 9⟩, "tok", "k1"⟩⟩,
        ⟨⟨[], [("u1", [("password_hash", .str "h1"), ("encrypted_symmetric_key", .str "k1")])]⟩,
          ["Password hash mismatch, trying Firebase authentication...",
            "WARNING: Password hash mismatch. Firebase Auth doesn't provide a direct way to verify passwords."]⟩) := by
  decide

/-- The route that `main` gives a request `GET /api/pastes/<id>`: the handler
`GetPaste` itself, without the middleware, with the variable `id` set. -/
theorem routerMatch_get_paste (authClient : AuthClient) (register : Handler)
    (loginEnv : LoginEnv) (createEnv : CreateEnv) (query : Firestore → String → List PasteDoc)
    (id authorization : String) (hid : cleanSegment id) :
    routerMatch (mainRouter authClient register loginEnv createEnv query)
        (incoming "GET" ("/api/pastes/" ++ id) authorization)
      = some (GetPaste, [("id", id)]) := by
  have hs := Split_paste_path id hid.2.1
  have hp : HasPrefix ("/api/pastes/" ++ id) "/api" = true :=
    (HasPrefix_iff _ _).2 ⟨"/pastes/" ++ id, by apply String.ext; simp⟩
  have t1 : (Split ("" ++ "/api/auth/register") '/').map parseSeg
      = [.lit "", .lit "api", .lit "auth", .lit "register"] := by decide
  have t2 : (Split ("" ++ "/api/auth/login") '/').map parseSeg
      = [.lit "", .lit "api", .lit "auth", .lit "login"] := by decide
  have t3 : (Split ("/api" ++ "/pastes") '/').map parseSeg
      = [.lit "", .lit "api", .lit "pastes"] := by decide
  have t4 : (Split ("" ++ "/api/pastes/{id}") '/').map parseSeg
      = [.lit "", .lit "api", .lit "pastes", .var "id"] := by decide
  have e1 : ("auth" : String) ≠ "pastes" := by decide
  have m1 : matchPath ("" ++ "/api/auth/register") ("/api/pastes/" ++ id) = none := by
    unfold matchPath
    rw [t1, hs]
    simp [matchSegs, e1]
  have m2 : matchPath ("" ++ "/api/auth/login") ("/api/pastes/" ++ id) = none := by
    unfold matchPath
    rw [t2, hs]
    simp [matchSegs, e1]
  have m3 : matchPath ("/api" ++ "/pastes") ("/api/pastes/" ++ id) = none := by
    unfold matchPath
    rw [t3, hs]
    simp [matchSegs]
  have m4 : matchPath ("" ++ "/api/pastes/{id}") ("/api/pastes/" ++ id) = some [("id", id)] := by
    unfold matchPath
    rw [t4, hs]
    simp [matchSegs, hid.1]
  simp only [routerMatch, mainRouter, matchRoutes, incoming, m1, m2, m3, m4, hp]
  simp

/-- What the same request gets when `GetPaste` runs behind `AuthMiddleware`, as the
two routes of the protected subrouter do: the owner is answered 200. -/
theorem GetPaste_behind_middleware (authClient : AuthClient) (r : Request) (w : World)
    (token : String) (paste : Paste)
    (hauth : r.Authorization = "Bearer " ++ token)
    (hget : w.Firestore.GetPaste (r.Var "id") = some (.paste paste))
    (hver : authClient.VerifyIDToken token = .ok ⟨paste.UserID⟩) :
    AuthMiddleware authClient GetPaste r w
      = (⟨200, none, .paste (reconstructDataURL paste)⟩, w) := by
  rw [AuthMiddleware_bearer authClient GetPaste r w token hauth, hver]
  exact GetPaste_allowed _ w paste hget (Or.inr ⟨⟨paste.UserID⟩, rfl, rfl⟩)

/-! ## The claims -/

/-- C1 (data-URL round trip). A submitted image content
`"data:" ++ mime ++ ";base64," ++ payload`, with `mime` free of `:`, `;`, `,` and
`payload` valid base64, is accepted by `CreatePaste` (201 when the write succeeds) and
stored with content `payload` and mime type `mime`; the decode step applied to the
stored paste gives back the submitted data URL, in `GetPaste` on the store after the
write and in `GetUserPastes` when the query yields the stored document. -/
theorem C1_data_url_round_trip (env : CreateEnv) (r g : Request) (w : World) (tok : Token)
    (req : CreatePasteRequest) (mime payload : String)
    (hctx : r.ctx.user = some tok) (hbody : r.createPasteBody = .ok req)
    (hk : req.ContentType = ContentTypeImage)
    (hc : req.Content = "data:" ++ mime ++ ";base64," ++ payload)
    (h1 : ':' ∉ mime.data) (h2 : ';' ∉ mime.data) (h3 : ',' ∉ mime.data)
    (hv : validBase64 payload = true) (hset : env.setErr = none)
    (hid : g.Var "id" = env.uuid) (hg : req.IsPublic = true ∨ g.ctx.user = some tok) :
    CreatePaste env r w =
      (⟨201, none,
          .paste (newPaste env.uuid tok.UID env.now { req with MimeType := mime, Content := payload })⟩,
        { w with Firestore := (w.Firestore.SetPaste env.uuid
            (newPaste env.uuid tok.UID env.now { req with MimeType := mime, Content := payload })) }) ∧
    (reconstructDataURL
        (newPaste env.uuid tok.UID env.now { req with MimeType := mime, Content := payload })).Content
      = req.Content ∧
    (GetPaste g (CreatePaste env r w).2).1 =
      ⟨200, none, .paste (newPaste env.uuid tok.UID env.now { req with MimeType := mime })⟩ ∧
    ∀ query : Firestore → String → List PasteDoc,
      g.ctx.user = some tok →
      query (CreatePaste env r w).2.Firestore tok.UID =
          [.paste (newPaste env.uuid tok.UID env.now { req with MimeType := mime, Content := payload })] →
        (GetUserPastes query g (CreatePaste env r w).2).1 =
          ⟨200, none, .pastes [newPaste env.uuid tok.UID env.now { req with MimeType := mime }]⟩ := by
  have hval := validateImage_dataURL req mime payload hk hc h1 h2 h3 hv
  have hcreate := CreatePaste_of_validate env r w tok req _ hctx hbody (Or.inr hk) hval hset
  have hnp := not_HasPrefix_data_of_validBase64 payload hv
  have hrec : reconstructDataURL
      (newPaste env.uuid tok.UID env.now { req with MimeType := mime, Content := payload })
      = newPaste env.uuid tok.UID env.now { req with MimeType := mime } := by
    rw [reconstructDataURL_image _ hk hnp]
    simp [newPaste, hc]
  refine ⟨hcreate, ?_, ?_, ?_⟩
  · rw [hrec]; rfl
  · rw [hcreate]
    rw [GetPaste_allowed g _ _ (by rw [hid]; exact GetPaste_SetPaste _ _ _)
      (hg.imp id (fun h => ⟨tok, h, rfl⟩)), hrec]
  · intro query hg1 hq
    rw [hcreate] at hq ⊢
    rw [GetUserPastes_single query g _ tok _ hg1 hq, hrec]

/-- C1, concrete instance: `data:image/png;base64,aGVsbG8=` is stored as `aGVsbG8=`
with mime `image/png` and, being public, read back by `GetPaste` without a caller
identity as the data URL. -/
theorem C1_data_url_round_trip_witness :
    (CreatePaste sampleEnv
        (createRequest ⟨"alice"⟩ ⟨"t", "data:image/png;base64,aGVsbG8=", "image", "", true⟩)
        emptyWorld).1 =
      ⟨201, none, .paste ⟨"id-1", "alice", "t", "aGVsbG8=", "image", "image/png", 5, 5, true⟩⟩ ∧
    (GetPaste (getRequest "id-1" Context.empty)
        (CreatePaste sampleEnv
          (createRequest ⟨"alice"⟩ ⟨"t", "data:image/png;base64,aGVsbG8=", "image", "", true⟩)
          emptyWorld).2).1 =
      ⟨200, none, .paste ⟨"id-1", "alice", "t", "data:image/png;base64,aGVsbG8=", "image",
        "image/png", 5, 5, true⟩⟩ :=
  have h := C1_data_url_round_trip sampleEnv
    (createRequest ⟨"alice"⟩ ⟨"t", "data:image/png;base64,aGVsbG8=", "image", "", true⟩)
    (getRequest "id-1" Context.empty) emptyWorld ⟨"alice"⟩
    ⟨"t", "data:image/png;base64,aGVsbG8=", "image", "", true⟩ "image/png" "aGVsbG8="
    rfl rfl rfl (by decide) (by decide) (by decide) (by decide) (by decide) rfl rfl (Or.inl rfl)
  ⟨congrArg Prod.fst h.1, h.2.2.1⟩

/-- C2 (read visibility at the handler). For a stored paste, `GetPaste` answers 200
with the decoded paste when the paste is public, whatever the context holds; when it
is not public it answers 200 exactly when the context carries an identity equal to
the owner id, and 403 Forbidden in every other case. -/
theorem C2_read_visibility (g : Request) (w : World) (paste : Paste)
    (hget : w.Firestore.GetPaste (g.Var "id") = some (.paste paste)) :
    (paste.IsPublic = true →
      GetPaste g w = (⟨200, none, .paste (reconstructDataURL paste)⟩, w)) ∧
    (paste.IsPublic = false →
      ((∃ tok, g.ctx.user = some tok ∧ tok.UID = paste.UserID) →
        GetPaste g w = (⟨200, none, .paste (reconstructDataURL paste)⟩, w)) ∧
      ((¬ ∃ tok, g.ctx.user = some tok ∧ tok.UID = paste.UserID) →
        GetPaste g w = (httpError "Unauthorized to access this paste" 403, w))) ∧
    ((GetPaste g w).1.status ≠ 403 ↔
      (paste.IsPublic = true ∨ ∃ tok, g.ctx.user = some tok ∧ tok.UID = paste.UserID)) := by
  refine ⟨fun hp => GetPaste_allowed g w paste hget (Or.inl hp),
    fun hp => ⟨fun ho => GetPaste_allowed g w paste hget (Or.inr ho),
      fun hn => GetPaste_forbidden g w paste hget hp hn⟩, ?_⟩
  constructor
  · intro hs
    by_contra hcon
    rw [not_or] at hcon
    have hp : paste.IsPublic = false := by simpa using hcon.1
    rw [GetPaste_forbidden g w paste hget hp hcon.2] at hs
    exact hs rfl
  · intro hok
    rw [GetPaste_allowed g w paste hget hok]
    simp

/-- C2, concrete instance: a private paste of `alice` in the store, read with the
identity `bob` in the context, is answered 403. -/
theorem C2_read_visibility_witness :
    GetPaste (getRequest "p1" ⟨some ⟨"bob"⟩⟩)
        ⟨⟨[("p1", .paste ⟨"p1", "alice", "t", "hello", "text", "", 1, 1, false⟩)], []⟩, []⟩ =
      (httpError "Unauthorized to access this paste" 403,
        ⟨⟨[("p1", .paste ⟨"p1", "alice", "t", "hello", "text", "", 1, 1, false⟩)], []⟩, []⟩) :=
  ((C2_read_visibility (getRequest "p1" ⟨some ⟨"bob"⟩⟩)
      ⟨⟨[("p1", .paste ⟨"p1", "alice", "t", "hello", "text", "", 1, 1, false⟩)], []⟩, []⟩
      ⟨"p1", "alice", "t", "hello", "text", "", 1, 1, false⟩ rfl).2.1 rfl).2 (by decide)

/-- C3 (the code at the failing input, for every such input). A `GET /api/pastes/<id>`
request for a stored non-public paste, carrying `Bearer <token>` with a token that
the credential store verifies to the owner of the paste, is routed by `main` to
`GetPaste` without the middleware, so it reaches the handler with an empty context
and is answered 403 Forbidden, not 200. -/
theorem C3_owner_read_of_private_paste_is_forbidden (authClient : AuthClient)
    (register : Handler) (loginEnv : LoginEnv) (createEnv : CreateEnv)
    (query : Firestore → String → List PasteDoc) (id token : String) (w : World) (paste : Paste)
    (hid : cleanSegment id)
    (hget : w.Firestore.GetPaste id = some (.paste paste))
    (hpriv : paste.IsPublic = false)
    (_hver : authClient.VerifyIDToken token = .ok ⟨paste.UserID⟩) :
    ServeHTTP (mainRouter authClient register loginEnv createEnv query)
        (incoming "GET" ("/api/pastes/" ++ id) ("Bearer " ++ token)) w
      = (httpError "Unauthorized to access this paste" 403, w) := by
  unfold ServeHTTP
  rw [routerMatch_get_paste authClient register loginEnv createEnv query id _ hid]
  exact GetPaste_forbidden _ w paste (by simpa [Request.Var, List.lookup] using hget) hpriv
    (by simp [incoming, Context.empty])

/-- C3, concrete instance: the private paste `p1` of `alice`, requested with the token
`tok` that verifies to `alice`, is answered 403. -/
theorem C3_owner_read_of_private_paste_is_forbidden_witness :
    (ServeHTTP
        (mainRouter
          ⟨fun t => if t = "tok" then .ok ⟨"alice"⟩ else .error "invalid", fun _ => .error "",
            fun _ => .error ""⟩
          (fun _ w => (httpError "" 500, w)) ⟨9⟩ sampleEnv (fun _ _ => []))
        (incoming "GET" ("/api/pastes/" ++ "p1") ("Bearer " ++ "tok"))
        ⟨⟨[("p1", .paste ⟨"p1", "alice", "t", "aGVsbG8=", "text", "", 1, 1, false⟩)], []⟩, []⟩).1
      = httpError "Unauthorized to access this paste" 403 :=
  congrArg Prod.fst
    (C3_owner_read_of_private_paste_is_forbidden
      ⟨fun t => if t = "tok" then .ok ⟨"alice"⟩ else .error "invalid", fun _ => .error "",
        fun _ => .error ""⟩
      (fun _ w => (httpError "" 500, w)) ⟨9⟩ sampleEnv (fun _ _ => []) "p1" "tok"
      ⟨⟨[("p1", .paste ⟨"p1", "alice", "t", "aGVsbG8=", "text", "", 1, 1, false⟩)], []⟩, []⟩
      ⟨"p1", "alice", "t", "aGVsbG8=", "text", "", 1, 1, false⟩
      (by unfold cleanSegment; decide) rfl rfl rfl)

/-- C4 (rejection of malformed image content, with no write). For a request of content
kind Image from an authenticated caller, `CreatePaste` answers something other than
400 exactly when the content is raw valid base64 without the `data:` prefix or a
well-formed data URL; every other content is answered 400 with the world (database
and output) unchanged; an accepted content is answered 201 and written when the
Firestore write succeeds. -/
theorem C4_image_acceptance (env : CreateEnv) (r : Request) (w : World) (tok : Token)
    (req : CreatePasteRequest)
    (hctx : r.ctx.user = some tok) (hbody : r.createPasteBody = .ok req)
    (hk : req.ContentType = ContentTypeImage) :
    ((CreatePaste env r w).1.status ≠ 400 ↔
      (rawBase64Content req.Content ∨ wellFormedDataURL req.Content)) ∧
    (¬ (rawBase64Content req.Content ∨ wellFormedDataURL req.Content) →
      (CreatePaste env r w).1.status = 400 ∧ (CreatePaste env r w).2 = w) ∧
    ((rawBase64Content req.Content ∨ wellFormedDataURL req.Content) → env.setErr = none →
      (CreatePaste env r w).1.status = 201 ∧
      ∃ paste : Paste,
        (CreatePaste env r w).2.Firestore = w.Firestore.SetPaste env.uuid paste) := by
  have hk1 : ¬ (req.ContentType ≠ ContentTypeText ∧ req.ContentType ≠ ContentTypeImage) := by
    simp [hk]
  have hrun : CreatePaste env r w =
      (match validateImage req with
        | .error resp => (resp, w)
        | .ok req1 =>
          match env.setErr with
          | some err =>
            (httpError ("Failed to store paste: " ++ err) 500,
              w.Println ("Error storing paste in Firestore: " ++ err))
          | none =>
            (⟨201, none, .paste (newPaste env.uuid tok.UID env.now req1)⟩,
              { w with Firestore :=
                  (w.Firestore.SetPaste env.uuid (newPaste env.uuid tok.UID env.now req1)) })) := by
    simp only [CreatePaste, GetUserID, hctx, hbody]
    rw [if_neg hk1]
  have hacc : (rawBase64Content req.Content ∨ wellFormedDataURL req.Content) →
      ∃ req1, validateImage req = .ok req1 := by
    rintro (⟨hp, hv⟩ | ⟨mime, payload, hc, h1, h2, h3, hv⟩)
    · exact ⟨_, validateImage_raw req hk hp hv⟩
    · exact ⟨_, validateImage_dataURL req mime payload hk hc h1 h2 h3 hv⟩
  have hrej : ¬ (rawBase64Content req.Content ∨ wellFormedDataURL req.Content) →
      ∃ resp, validateImage req = .error resp ∧ resp.status = 400 := by
    intro hn
    cases hval : validateImage req with
    | error resp => exact ⟨resp, rfl, validateImage_error_status req resp hval⟩
    | ok req1 => exact absurd (validateImage_ok_inv req req1 hk hval) hn
  refine ⟨⟨?_, ?_⟩, ?_, ?_⟩
  · intro hs
    by_contra hn
    obtain ⟨resp, hval, h400⟩ := hrej hn
    rw [hrun, hval] at hs
    exact hs h400
  · intro ha
    obtain ⟨req1, hval⟩ := hacc ha
    rw [hrun, hval]
    cases hset : env.setErr <;> simp [httpError]
  · intro hn
    obtain ⟨resp, hval, h400⟩ := hrej hn
    rw [hrun, hval]
    exact ⟨h400, rfl⟩
  · intro ha hset
    obtain ⟨req1, hval⟩ := hacc ha
    rw [hrun, hval, hset]
    exact ⟨rfl, _, rfl⟩

/-- C4, concrete instance: `data:image/png;base64,aGV,sbG8=` (two commas) is answered
400 and the database stays as it was. -/
theorem C4_image_acceptance_witness :
    (CreatePaste sampleEnv
      (createRequest ⟨"alice"⟩ ⟨"t", "data:image/png;base64,aGV,sbG8=", "image", "", true⟩)
      emptyWorld).1.status = 400 ∧
    (CreatePaste sampleEnv
      (createRequest ⟨"alice"⟩ ⟨"t", "data:image/png;base64,aGV,sbG8=", "image", "", true⟩)
      emptyWorld).2 = emptyWorld :=
  have h := C4_image_acceptance sampleEnv
    (createRequest ⟨"alice"⟩ ⟨"t", "data:image/png;base64,aGV,sbG8=", "image", "", true⟩)
    emptyWorld ⟨"alice"⟩ ⟨"t", "data:image/png;base64,aGV,sbG8=", "image", "", true⟩ rfl rfl rfl
  h.2.1 (fun ha => absurd (h.1.2 ha) (by decide))

/-- C5 (raw base64 images). A submitted image content that does not start with `data:`
and is valid base64 is accepted by `CreatePaste` (201 when the write succeeds) and
stored unchanged, with mime type `image/png` when the request gives none and the
mime type of the request otherwise; the decode step of `GetPaste` returns
`"data:" ++ stored mime type ++ ";base64," ++ content`. -/
theorem C5_raw_base64_image (env : CreateEnv) (r g : Request) (w : World) (tok : Token)
    (req : CreatePasteRequest)
    (hctx : r.ctx.user = some tok) (hbody : r.createPasteBody = .ok req)
    (hk : req.ContentType = ContentTypeImage)
    (hp : HasPrefix req.Content "data:" = false)
    (hv : validBase64 req.Content = true) (hset : env.setErr = none)
    (hid : g.Var "id" = env.uuid) (hg : req.IsPublic = true ∨ g.ctx.user = some tok) :
    CreatePaste env r w =
      (⟨201, none, .paste (newPaste env.uuid tok.UID env.now
          { req with MimeType := if req.MimeType = "" then "image/png" else req.MimeType })⟩,
        { w with Firestore := (w.Firestore.SetPaste env.uuid (newPaste env.uuid tok.UID env.now
          { req with MimeType := if req.MimeType = "" then "image/png" else req.MimeType })) }) ∧
    (reconstructDataURL (newPaste env.uuid tok.UID env.now
        { req with MimeType := if req.MimeType = "" then "image/png" else req.MimeType })).Content
      = "data:" ++ (if req.MimeType = "" then "image/png" else req.MimeType) ++ ";base64,"
          ++ req.Content ∧
    (GetPaste g (CreatePaste env r w).2).1 =
      ⟨200, none, .paste (newPaste env.uuid tok.UID env.now
        { req with
          MimeType := if req.MimeType = "" then "image/png" else req.MimeType
          Content := "data:" ++ (if req.MimeType = "" then "image/png" else req.MimeType)
            ++ ";base64," ++ req.Content })⟩ := by
  have hval := validateImage_raw req hk hp hv
  have hreq : (if req.MimeType = "" then { req with MimeType := "image/png" } else req)
      = { req with MimeType := if req.MimeType = "" then "image/png" else req.MimeType } := by
    by_cases hm : req.MimeType = "" <;> simp [hm]
  rw [hreq] at hval
  have hcreate := CreatePaste_of_validate env r w tok req _ hctx hbody (Or.inr hk) hval hset
  refine ⟨hcreate, ?_, ?_⟩
  · rw [reconstructDataURL_image _ hk hp]
    rfl
  · rw [hcreate]
    rw [GetPaste_allowed g _ _ (by rw [hid]; exact GetPaste_SetPaste _ _ _)
      (hg.imp id (fun h => ⟨tok, h, rfl⟩))]
    rw [reconstructDataURL_image _ hk hp]
    rfl

/-- C5, concrete instance: raw `aGVsbG8=` without a mime type is stored with
`image/png` and read back as `data:image/png;base64,aGVsbG8=`. -/
theorem C5_raw_base64_image_witness :
    (CreatePaste sampleEnv (createRequest ⟨"alice"⟩ ⟨"t", "aGVsbG8=", "image", "", false⟩)
        emptyWorld).1 =
      ⟨201, none, .paste ⟨"id-1", "alice", "t", "aGVsbG8=", "image", "image/png", 5, 5, false⟩⟩ ∧
    (GetPaste (getRequest "id-1" ⟨some ⟨"alice"⟩⟩)
        (CreatePaste sampleEnv (createRequest ⟨"alice"⟩ ⟨"t", "aGVsbG8=", "image", "", false⟩)
          emptyWorld).2).1 =
      ⟨200, none, .paste ⟨"id-1", "alice", "t", "data:image/png;base64,aGVsbG8=", "image",
        "image/png", 5, 5, false⟩⟩ :=
  have h := C5_raw_base64_image sampleEnv
    (createRequest ⟨"alice"⟩ ⟨"t", "aGVsbG8=", "image", "", false⟩)
    (getRequest "id-1" ⟨some ⟨"alice"⟩⟩) emptyWorld ⟨"alice"⟩
    ⟨"t", "aGVsbG8=", "image", "", false⟩ rfl rfl rfl (by decide) (by decide) rfl rfl
    (Or.inr rfl)
  ⟨congrArg Prod.fst h.1, h.2.2⟩

/-- C6 (stored-image invariant). Whenever `CreatePaste` answers 201, the paste written
to the store has the content kind of the request, and when that kind is Image
(submitted as a data URL or as raw base64) its content is valid base64 and does not
start with `data:`; so on a paste written by `CreatePaste` the decode step always
builds the data URL and never takes the branch for an image that already carries the
prefix. -/
theorem C6_stored_image_invariant (env : CreateEnv) (r : Request) (w : World)
    (req : CreatePasteRequest) (hbody : r.createPasteBody = .ok req)
    (h201 : (CreatePaste env r w).1.status = 201) :
    ∃ paste : Paste,
      (CreatePaste env r w).1.body = .paste paste ∧
      (CreatePaste env r w).2.Firestore = w.Firestore.SetPaste env.uuid paste ∧
      paste.ContentType = req.ContentType ∧
      (paste.ContentType = ContentTypeImage →
        validBase64 paste.Content = true ∧
        HasPrefix paste.Content "data:" = false ∧
        reconstructDataURL paste =
          { paste with Content := sprintfDataURL paste.MimeType paste.Content }) := by
  obtain ⟨tok, req1, -, hval, -, hcreate⟩ := CreatePaste_created_inv env r w req hbody h201
  have hfacts : req1.ContentType = req.ContentType ∧
      (req.ContentType = ContentTypeImage → validBase64 req1.Content = true) := by
    by_cases hk : req.ContentType = ContentTypeImage
    · rcases validateImage_ok_inv req req1 hk hval with
        ⟨hp, hv⟩ | ⟨mime, payload, hc, h1, h2, h3, hv⟩
      · rw [validateImage_raw req hk hp hv] at hval
        injection hval with hval
        subst hval
        by_cases hm : req.MimeType = "" <;> simp [hm, hv]
      · rw [validateImage_dataURL req mime payload hk hc h1 h2 h3 hv] at hval
        injection hval with hval
        subst hval
        exact ⟨rfl, fun _ => hv⟩
    · have hval1 : validateImage req = .ok req := by simp [validateImage, hk]
      rw [hval1] at hval
      injection hval with hval
      subst hval
      exact ⟨rfl, fun h => absurd h hk⟩
  refine ⟨newPaste env.uuid tok.UID env.now req1, by rw [hcreate], by rw [hcreate], hfacts.1, ?_⟩
  intro hk
  have hk1 : req1.ContentType = ContentTypeImage := hk
  have hv := hfacts.2 (hfacts.1 ▸ hk1)
  have hnp := not_HasPrefix_data_of_validBase64 _ hv
  refine ⟨hv, hnp, ?_⟩
  simp [reconstructDataURL, newPaste, hk1, hnp]

/-- C6, concrete instance: the data URL `data:image/png;base64,aGVsbG8=` is accepted
and what is stored is `aGVsbG8=`. -/
theorem C6_stored_image_invariant_witness :
    ∃ paste : Paste,
      (CreatePaste sampleEnv
        (createRequest ⟨"alice"⟩ ⟨"t", "data:image/png;base64,aGVsbG8=", "image", "", true⟩)
        emptyWorld).1.body = .paste paste ∧
      (CreatePaste sampleEnv
        (createRequest ⟨"alice"⟩ ⟨"t", "data:image/png;base64,aGVsbG8=", "image", "", true⟩)
        emptyWorld).2.Firestore = emptyWorld.Firestore.SetPaste "id-1" paste ∧
      paste.ContentType = "image" ∧
      (paste.ContentType = ContentTypeImage →
        validBase64 paste.Content = true ∧
        HasPrefix paste.Content "data:" = false ∧
        reconstructDataURL paste =
          { paste with Content := sprintfDataURL paste.MimeType paste.Content }) :=
  C6_stored_image_invariant sampleEnv
    (createRequest ⟨"alice"⟩ ⟨"t", "data:image/png;base64,aGVsbG8=", "image", "", true⟩)
    emptyWorld ⟨"t", "data:image/png;base64,aGVsbG8=", "image", "", true⟩ rfl (by decide)

/-- C7, counterexample: a Text request that supplies the mime type `image/png` is
accepted, and the paste stored and returned carries `image/png`, not an empty mime
type. -/
theorem C7_text_mime_counterexample :
    CreatePaste sampleEnv (createRequest ⟨"alice"⟩ ⟨"t", "hello", "text", "image/png", false⟩)
        emptyWorld =
      (⟨201, none, .paste ⟨"id-1", "alice", "t", "hello", "text", "image/png", 5, 5, false⟩⟩,
        ⟨⟨[("id-1", .paste ⟨"id-1", "alice", "t", "hello", "text", "image/png", 5, 5, false⟩)],
          []⟩, []⟩) ∧
    (⟨"id-1", "alice", "t", "hello", "text", "image/png", 5, 5, false⟩ : Paste).ContentType
      = ContentTypeText ∧
    (⟨"id-1", "alice", "t", "hello", "text", "image/png", 5, 5, false⟩ : Paste).MimeType ≠ "" := by
  refine ⟨?_, rfl, by decide⟩
  decide

/-- C7 (amended). Whenever `CreatePaste` answers 201 to a request of content kind
Text, the paste stored and returned carries the title, the content and the mime type
of the request unchanged; its mime type is empty exactly when the request gave none. -/
theorem C7_text_mime_passthrough (env : CreateEnv) (r : Request) (w : World)
    (req : CreatePasteRequest) (hbody : r.createPasteBody = .ok req)
    (hk : req.ContentType = ContentTypeText)
    (h201 : (CreatePaste env r w).1.status = 201) :
    ∃ paste : Paste,
      (CreatePaste env r w).1.body = .paste paste ∧
      (CreatePaste env r w).2.Firestore = w.Firestore.SetPaste env.uuid paste ∧
      paste.Title = req.Title ∧ paste.Content = req.Content ∧
      paste.MimeType = req.MimeType ∧ (paste.MimeType = "" ↔ req.MimeType = "") := by
  obtain ⟨tok, req1, -, hval, -, hcreate⟩ := CreatePaste_created_inv env r w req hbody h201
  have hne : ContentTypeText ≠ ContentTypeImage := by decide
  have hval1 : validateImage req = .ok req := by simp [validateImage, hk, hne]
  rw [hval1] at hval
  injection hval with hval
  subst hval
  exact ⟨newPaste env.uuid tok.UID env.now req, by rw [hcreate], by rw [hcreate], rfl, rfl, rfl,
    Iff.rfl⟩

/-- C7 (amended), concrete instance: the Text request with mime type `image/png`. -/
theorem C7_text_mime_passthrough_witness :
    ∃ paste : Paste,
      (CreatePaste sampleEnv
        (createRequest ⟨"alice"⟩ ⟨"t", "hello", "text", "image/png", false⟩)
        emptyWorld).1.body = .paste paste ∧
      (CreatePaste sampleEnv
        (createRequest ⟨"alice"⟩ ⟨"t", "hello", "text", "image/png", false⟩)
        emptyWorld).2.Firestore = emptyWorld.Firestore.SetPaste "id-1" paste ∧
      paste.Title = "t" ∧ paste.Content = "hello" ∧
      paste.MimeType = "image/png" ∧ (paste.MimeType = "" ↔ "image/png" = "") :=
  C7_text_mime_passthrough sampleEnv
    (createRequest ⟨"alice"⟩ ⟨"t", "hello", "text", "image/png", false⟩)
    emptyWorld ⟨"t", "hello", "text", "image/png", false⟩ rfl rfl (by decide)

/-- C8 (text passthrough). Every string submitted with content kind Text is accepted
by `CreatePaste` (201 when the write succeeds) and stored unchanged, and the decode
step of `GetPaste` and of `GetUserPastes` returns it unchanged. -/
theorem C8_text_passthrough (env : CreateEnv) (r g : Request) (w : World) (tok : Token)
    (req : CreatePasteRequest)
    (hctx : r.ctx.user = some tok) (hbody : r.createPasteBody = .ok req)
    (hk : req.ContentType = ContentTypeText) (hset : env.setErr = none)
    (hid : g.Var "id" = env.uuid) (hg : req.IsPublic = true ∨ g.ctx.user = some tok) :
    CreatePaste env r w =
      (⟨201, none, .paste (newPaste env.uuid tok.UID env.now req)⟩,
        { w with Firestore :=
            (w.Firestore.SetPaste env.uuid (newPaste env.uuid tok.UID env.now req)) }) ∧
    (newPaste env.uuid tok.UID env.now req).Content = req.Content ∧
    (reconstructDataURL (newPaste env.uuid tok.UID env.now req)).Content = req.Content ∧
    (GetPaste g (CreatePaste env r w).2).1 =
      ⟨200, none, .paste (newPaste env.uuid tok.UID env.now req)⟩ ∧
    ∀ query : Firestore → String → List PasteDoc,
      g.ctx.user = some tok →
      query (CreatePaste env r w).2.Firestore tok.UID =
          [.paste (newPaste env.uuid tok.UID env.now req)] →
        (GetUserPastes query g (CreatePaste env r w).2).1 =
          ⟨200, none, .pastes [newPaste env.uuid tok.UID env.now req]⟩ := by
  have hne : ContentTypeText ≠ ContentTypeImage := by decide
  have hval : validateImage req = .ok req := by
    simp [validateImage, hk, hne]
  have hcreate := CreatePaste_of_validate env r w tok req _ hctx hbody (Or.inl hk) hval hset
  have hrec : reconstructDataURL (newPaste env.uuid tok.UID env.now req)
      = newPaste env.uuid tok.UID env.now req := reconstructDataURL_text _ hk
  refine ⟨hcreate, rfl, by rw [hrec]; rfl, ?_, ?_⟩
  · rw [hcreate]
    rw [GetPaste_allowed g _ _ (by rw [hid]; exact GetPaste_SetPaste _ _ _)
      (hg.imp id (fun h => ⟨tok, h, rfl⟩)), hrec]
  · intro query hg1 hq
    rw [hcreate] at hq ⊢
    rw [GetUserPastes_single query g _ tok _ hg1 hq, hrec]

/-- C8, concrete instance: the text `data:image/png;base64,@,@` (a data-URL prefix,
commas, not base64) is stored and read back as it is. -/
theorem C8_text_passthrough_witness :
    (CreatePaste sampleEnv
        (createRequest ⟨"alice"⟩ ⟨"t", "data:image/png;base64,@,@", "text", "", false⟩)
        emptyWorld).1 =
      ⟨201, none, .paste ⟨"id-1", "alice", "t", "data:image/png;base64,@,@", "text", "", 5, 5,
        false⟩⟩ ∧
    (GetPaste (getRequest "id-1" ⟨some ⟨"alice"⟩⟩)
        (CreatePaste sampleEnv
          (createRequest ⟨"alice"⟩ ⟨"t", "data:image/png;base64,@,@", "text", "", false⟩)
          emptyWorld).2).1 =
      ⟨200, none, .paste ⟨"id-1", "alice", "t", "data:image/png;base64,@,@", "text", "", 5, 5,
        false⟩⟩ :=
  have h := C8_text_passthrough sampleEnv
    (createRequest ⟨"alice"⟩ ⟨"t", "data:image/png;base64,@,@", "text", "", false⟩)
    (getRequest "id-1" ⟨some ⟨"alice"⟩⟩) emptyWorld ⟨"alice"⟩
    ⟨"t", "data:image/png;base64,@,@", "text", "", false⟩ rfl rfl rfl rfl rfl (Or.inr rfl)
  ⟨congrArg Prod.fst h.1, h.2.2.2.1⟩

/-- C10, counterexample: the account is found, its profile document is fetched and the
token is issued, but the profile has no `encrypted_symmetric_key`; `Login` with a
mismatching hash answers 500, not 200. -/
theorem C10_incomplete_profile_counterexample :
    (⟨fun _ => .error "", fun _ => .ok ⟨"u1", "a@x.com"⟩, fun _ => .ok "tok"⟩ :
        AuthClient).GetUserByEmail "a@x.com" = .ok ⟨"u1", "a@x.com"⟩ ∧
    (⟨[], [("u1", [("password_hash", .str "h1")])]⟩ : Firestore).GetUser "u1"
      = some [("password_hash", .str "h1")] ∧
    (⟨fun _ => .error "", fun _ => .ok ⟨"u1", "a@x.com"⟩, fun _ => .ok "tok"⟩ :
        AuthClient).CustomToken "u1" = .ok "tok" ∧
    (Login ⟨fun _ => .error "", fun _ => .ok ⟨"u1", "a@x.com"⟩, fun _ => .ok "tok"⟩ ⟨9⟩
        (loginRequest ⟨"a@x.com", "other"⟩)
        ⟨⟨[], [("u1", [("password_hash", .str "h1")])]⟩, []⟩).1 =
      httpError "User data incomplete" 500 := by
  refine ⟨rfl, by decide, rfl, by decide⟩

/-- C10 (amended). `Login` answers the same for every two submitted credential hashes:
for one email and one state of the credential store and the database, the responses
(status, `Authorization` header, body with identity id, token and encrypted symmetric
key) are equal, and the database is left as it was.  When the lookup, the profile
fetch and the token issuance succeed and the profile holds the two string fields
`password_hash` and `encrypted_symmetric_key`, the answer is 200 with the token,
whether or not the submitted hash equals the stored one. -/
theorem C10_login_ignores_hash (authClient : AuthClient) (env : LoginEnv) (r1 r2 : Request)
    (w : World) (email h1 h2 : String)
    (hr1 : r1.bodyReadErr = none) (hr2 : r2.bodyReadErr = none)
    (hb1 : r1.loginBody = .ok ⟨email, h1⟩) (hb2 : r2.loginBody = .ok ⟨email, h2⟩) :
    (Login authClient env r1 w).1 = (Login authClient env r2 w).1 ∧
    (Login authClient env r1 w).2.Firestore = w.Firestore ∧
    (∀ (u : UserRecord) (userData : List (String × FieldValue)) (stored token key : String),
      authClient.GetUserByEmail email = .ok u →
      w.Firestore.GetUser u.UID = some userData →
      stringField userData "password_hash" = (stored, true) →
      authClient.CustomToken u.UID = .ok token →
      stringField userData "encrypted_symmetric_key" = (key, true) →
      (Login authClient env r1 w).1 =
        ⟨200, some ("Bearer " ++ token), .login ⟨⟨u.UID, u.Email, env.now⟩, token, key⟩⟩) := by
  refine ⟨?_, ?_, ?_⟩
  · simp only [Login, hr1, hr2, hb1, hb2, ne_eq, not_true_eq_false, if_false]
    cases authClient.GetUserByEmail email with
    | error err => rfl
    | ok u =>
      simp only []
      cases w.Firestore.GetUser u.UID with
      | none => rfl
      | some userData =>
        simp only []
        rcases stringField userData "password_hash" with ⟨stored, _ | _⟩
        · rfl
        · simp only []
          cases authClient.CustomToken u.UID with
          | error err => rfl
          | ok token =>
            simp only []
            rcases stringField userData "encrypted_symmetric_key" with ⟨key, _ | _⟩ <;> rfl
  · simp only [Login, hr1, hb1, ne_eq, not_true_eq_false, if_false]
    cases authClient.GetUserByEmail email with
    | error err => rfl
    | ok u =>
      simp only []
      cases w.Firestore.GetUser u.UID with
      | none => rfl
      | some userData =>
        simp only []
        rcases stringField userData "password_hash" with ⟨stored, _ | _⟩
        · rfl
        · simp only []
          cases authClient.CustomToken u.UID with
          | error err => by_cases hm : h1 ≠ stored <;> simp [hm, World.Println]
          | ok token =>
            simp only []
            rcases stringField userData "encrypted_symmetric_key" with ⟨key, _ | _⟩ <;>
              by_cases hm : h1 ≠ stored <;> simp [hm, World.Println]
  · intro u userData stored token key hu hd hs ht hk
    simp only [Login, hr1, hb1, hu, hd, hs, ht, hk, ne_eq, not_true_eq_false, if_false]

/-- C10 (amended), concrete instance: with the stored hash `h1`, a login with the hash
`other` gets the answer of a login with `h1`. -/
theorem C10_login_ignores_hash_witness :
    (Login ⟨fun _ => .error "", fun _ => .ok ⟨"u1", "a@x.com"⟩, fun _ => .ok "tok"⟩ ⟨9⟩
        (loginRequest ⟨"a@x.com", "other"⟩)
        ⟨⟨[], [("u1", [("password_hash", .str "h1"), ("encrypted_symmetric_key", .str "k1")])]⟩,
          []⟩).1 =
    (Login ⟨fun _ => .error "", fun _ => .ok ⟨"u1", "a@x.com"⟩, fun _ => .ok "tok"⟩ ⟨9⟩
        (loginRequest ⟨"a@x.com", "h1"⟩)
        ⟨⟨[], [("u1", [("password_hash", .str "h1"), ("encrypted_symmetric_key", .str "k1")])]⟩,
          []⟩).1 :=
  (C10_login_ignores_hash
    ⟨fun _ => .error "", fun _ => .ok ⟨"u1", "a@x.com"⟩, fun _ => .ok "tok"⟩ ⟨9⟩
    (loginRequest ⟨"a@x.com", "other"⟩) (loginRequest ⟨"a@x.com", "h1"⟩)
    ⟨⟨[], [("u1", [("password_hash", .str "h1"), ("encrypted_symmetric_key", .str "k1")])]⟩, []⟩
    "a@x.com" "other" "h1" rfl rfl rfl rfl).1

end PastePal
